import Mathlib

/-!
Verification of the trip itinerary optimization engine (RouteAgent in
agents/route_agent.py): distance oracle, route optimizer, day scheduler and
budget estimator, shallowly embedded in Lean.

Conventions of the embedding:
* Python dicts describing attractions become the structure Spot; optional
  dict keys become Option fields.
* Python floats are modelled as rationals where the code only does field
  arithmetic and comparisons, and as reals for the haversine formula
  (which needs sin, cos, arcsin, sqrt).
* The pairwise distance used by the route optimizer and budget estimator is
  a parameter dist : Spot -> Spot -> Rat abstracting _calculate_distance
  (whose own definition, with its cache and haversine, is embedded
  separately as calculate_distance below).
* The external networkx call in _solve_tsp_approximate is a parameter
  nxTour; theorems that depend on its documented contract (it returns a
  Hamiltonian cycle, first node repeated at the end) take that contract as
  a hypothesis.
* Fallible code (KeyError on missing dict keys) returns Except.
-/

namespace Vaiage

/-- The location sub-dictionary of an attraction: keys lat and lng may each
be absent, mirroring a partially populated Python dict. -/
structure Loc where
  lat : Option ℝ
  lng : Option ℝ

/-- An attraction record as consumed by RouteAgent: the id, name keys are
always present (per the data model), the others may be absent. -/
structure Spot where
  id : String
  name : String
  location : Option Loc
  estimated_duration : Option ℚ
  price_level : Option ℤ

instance : Inhabited Spot := ⟨⟨"", "", none, none, none⟩⟩

/-! ## Budget tier resolution (estimate_budget, lines 279-300) -/

/-- The value of user_prefs["budget"]: either a Python string or a
non-string (numeric) value, distinguished by isinstance(budget_value, str). -/
inductive BudgetVal where
  | str (s : String)
  | num (q : ℚ)

/-- budget_value.replace("$", "").replace(",", ""): removes every dollar
sign and comma character. -/
def strip_currency (s : String) : String :=
  String.mk (s.toList.filter (fun c => c ≠ '$' ∧ c ≠ ','))

/-- Characters up to (excluding) the first occurrence of c: s.split(c)[0]
for a one-character separator. -/
def take_until (c : Char) (s : String) : String :=
  String.mk (s.toList.takeWhile (fun ch => ch ≠ c))

/-- Decimal digit run to a natural number. -/
def digits_to_nat (l : List Char) : ℕ :=
  l.foldl (fun n c => 10 * n + (c.toNat - '0'.toNat)) 0

/-- Python float(s) on plain decimal literals: optional sign, digits with at
most one decimal point, at least one digit; anything else fails (raises
ValueError, i.e. none).  The value intPart.fracPart is the exact rational
with numerator intPart*10^k + fracPart over denominator 10^k.  Exponents,
infinities and surrounding whitespace are not exercised by this code's
inputs and are not modelled. -/
def pyFloat (s : String) : Option ℚ :=
  let parse : List Char → Bool → Option ℚ := fun t neg =>
    let intPart := t.takeWhile Char.isDigit
    let rest := t.drop intPart.length
    match rest with
    | [] =>
      if intPart.isEmpty then none
      else some (mkRat ((if neg then -1 else 1) * (digits_to_nat intPart : ℤ)) 1)
    | '.' :: frac =>
      if frac.all Char.isDigit ∧ ¬(intPart.isEmpty ∧ frac.isEmpty) then
        some (mkRat
          ((if neg then -1 else 1) *
            ((digits_to_nat intPart : ℤ) * (10 : ℤ) ^ frac.length + (digits_to_nat frac : ℤ)))
          ((10 : ℕ) ^ frac.length))
      else none
    | _ => none
  match s.toList with
  | '-' :: t => parse t true
  | '+' :: t => parse t false
  | t => parse t false

/-- Budget tier resolution embedded from estimate_budget lines 283-300:
non-strings resolve to "medium"; strings are stripped of currency symbols
and commas, cut at the first dash (en or ascii) when one is present, parsed
as a float and classified by the 1000/3000 thresholds; parse failure gives
"medium". -/
def resolve_budget_level (bv : BudgetVal) : String :=
  match bv with
  | .num _ => "medium"
  | .str s =>
    let s1 := strip_currency s
    let s2 := if s1.toList.contains '–' ∨ s1.toList.contains '-' then
        take_until '-' (take_until '–' s1)
      else s1
    match pyFloat s2 with
    | some v => if v < 1000 then "low" else if v < 3000 then "medium" else "high"
    | none => "medium"

/-! ## Rounding (Python round, used by estimate_budget for the returned fields) -/

/-- Python round(x) on an exact rational: nearest integer, ties to even. -/
def round_half_even (x : ℚ) : ℤ :=
  if Int.fract x < 1/2 then ⌊x⌋
  else if 1/2 < Int.fract x then ⌊x⌋ + 1
  else if ⌊x⌋ % 2 = 0 then ⌊x⌋ else ⌊x⌋ + 1

/-- Python round(x, 2) on an exact rational: round to the nearest multiple
of 1/100, ties to an even number of hundredths. -/
def pyRound2 (x : ℚ) : ℚ := (round_half_even (x * 100) : ℚ) / 100

/-! ## Route optimization (get_optimal_route and the TSP solvers) -/

/-- All ways of picking one element out of a list, each with the remaining
elements in order: the branching step of itertools.permutations. -/
def picks {α : Type} : List α → List (α × List α)
  | [] => []
  | x :: xs => (x, xs) :: (picks xs).map (fun p => (p.1, x :: p.2))

/-- Permutation listing with explicit fuel (the fuel is always the length
of the list, see perms_lex). -/
def perms_aux {α : Type} : ℕ → List α → List (List α)
  | 0, _ => [[]]
  | _, [] => [[]]
  | n + 1, l => (picks l).flatMap (fun p => (perms_aux n p.2).map (p.1 :: ·))

/-- The permutations of l in the exact order itertools.permutations emits
them: all permutations starting with l's first element (recursively in the
same order), then all starting with its second element, and so on. -/
def perms_lex {α : Type} (l : List α) : List (List α) := perms_aux l.length l

/-- Open-path cost of a sequence of indices under a distance matrix:
sum(distance_matrix[perm[i]][perm[i+1]] for i in range(n-1)) from
_solve_tsp_brute_force. -/
def path_cost (d : ℕ → ℕ → ℚ) : List ℕ → ℚ
  | a :: b :: rest => d a b + path_cost d (b :: rest)
  | _ => 0

/-- One iteration of the brute-force loop: keep the new permutation only on
a strict improvement (if distance < best_distance). -/
def tsp_step (c : List ℕ → ℚ) (acc : WithTop ℚ × List ℕ) (p : List ℕ) : WithTop ℚ × List ℕ :=
  if (c p : WithTop ℚ) < acc.1 then ((c p : WithTop ℚ), p) else acc

/-- _solve_tsp_brute_force: try all permutations of range(n) in
itertools order, starting from best_distance = inf, best_order =
list(range(n)), and return the spots reordered by the best order found. -/
def solve_tsp_brute_force (spots : List Spot) (d : ℕ → ℕ → ℚ) : List Spot :=
  (((perms_lex (List.range spots.length)).foldl (tsp_step (path_cost d))
    (⊤, List.range spots.length)).2).map (fun i => spots.getD i default)

/-- _solve_tsp_approximate: the networkx cycle (first node repeated at the
end) with the closing node dropped (tour[:-1]), mapped back to spots.  The
tour itself is produced by the external library and is a parameter here. -/
def solve_tsp_approximate (tour : List ℕ) (spots : List Spot) : List Spot :=
  tour.dropLast.map (fun i => spots.getD i default)

/-- _get_distance_matrix as a function: zero diagonal, and the pairwise
distance evaluated once per unordered pair (filled symmetrically). -/
def get_distance_matrix (dist : Spot → Spot → ℚ) (spots : List Spot) : ℕ → ℕ → ℚ :=
  fun i j =>
    if i < j then dist (spots.getD i default) (spots.getD j default)
    else if j < i then dist (spots.getD j default) (spots.getD i default)
    else 0

/-- get_optimal_route: lists of at most one spot are returned unchanged;
2 to 5 spots use the exhaustive solver; more use the approximate solver.
dist abstracts _calculate_distance and nxTour abstracts the call to
networkx.approximation.traveling_salesman_problem. -/
def get_optimal_route (dist : Spot → Spot → ℚ)
    (nxTour : List Spot → (ℕ → ℕ → ℚ) → List ℕ) (spots : List Spot) : List Spot :=
  if spots.length ≤ 1 then spots
  else
    let d := get_distance_matrix dist spots
    if spots.length ≤ 5 then solve_tsp_brute_force spots d
    else solve_tsp_approximate (nxTour spots d) spots

/-- Fixed concrete inputs used by witnesses: two or three attractions
without location data, a constant distance function, a trivial external
tour builder. -/
def wspot_a : Spot := ⟨"a", "A", none, none, none⟩

def wspot_b : Spot := ⟨"b", "B", none, none, none⟩

def wspot_c : Spot := ⟨"c", "C", none, none, none⟩

def wdist : Spot → Spot → ℚ := fun _ _ => 1

def wtour : List Spot → (ℕ → ℕ → ℚ) → List ℕ := fun _ _ => []

/-! ## Budget estimation (estimate_budget, lines 270-382) -/

/-- One rentable vehicle from car_info: only its price field is read. -/
structure CarInfo where
  price : ℚ

instance : Inhabited CarInfo := ⟨⟨0⟩⟩

/-- The user preference fields read by estimate_budget; absent keys fall to
the source defaults via .get. -/
structure TripPrefs where
  budget : Option BudgetVal
  people : Option ℤ
  days : Option ℤ

/-- The dictionary returned by estimate_budget. -/
structure Budget where
  total : ℚ
  accommodation : ℚ
  food : ℚ
  transport : ℚ
  attractions : ℚ
  car_rental : ℚ
  fuel_cost : ℚ

/-- base_costs per tier: accommodation, food, transport per day.  The level
argument is always one of low, medium, high. -/
def base_costs (level : String) : ℤ × ℤ × ℤ :=
  if level = "low" then (50, 30, 10)
  else if level = "medium" then (100, 60, 20)
  else (200, 100, 40)

/-- cost_map.get(price_level, 20): price level to per-person dollar cost. -/
def cost_map (pl : ℤ) : ℤ :=
  if pl = 0 then 0 else if pl = 1 then 10 else if pl = 2 then 20
  else if pl = 3 then 30 else if pl = 4 then 50 else 20

/-- fuel_costs[level]["fuel_efficiency"] in liters per 100 km. -/
def fuel_efficiency (level : String) : ℚ :=
  if level = "low" then 7 else if level = "medium" then 17/2 else 10

/-- Sum of consecutive pairwise distances along a route (the loop computing
total_distance in estimate_budget). -/
def total_route_distance (dist : Spot → Spot → ℚ) : List Spot → ℚ
  | a :: b :: rest => dist a b + total_route_distance dist (b :: rest)
  | _ => 0

/-- Attraction cost: per spot, cost_map of its price level (default 2)
times the people count, summed. -/
def attraction_cost_total (spots : List Spot) (num_people : ℤ) : ℤ :=
  spots.foldl (fun acc spot => acc + cost_map (spot.price_level.getD 2) * num_people) 0

/-- The price of the car selected from car_info by the extracted AI answer:
index answer-1 when the answer is in range(1, len+1), else index 0.  The
answer itself comes from an external LLM call and is a parameter. -/
def selected_car_price (car_info : List CarInfo) (ai_car_choice : ℤ) : ℚ :=
  (car_info.getD
    (if 1 ≤ ai_car_choice ∧ ai_car_choice ≤ car_info.length
      then ai_car_choice - 1 else 0).toNat default).price

/-- estimate_budget embedded from the source: per-diem base costs by
resolved tier times day and people counts, attraction costs, and, when a
car is rented, the selected car price plus fuel cost over the optimized
route; total is the rounded sum and the individual monetary fields are
returned alongside (car and fuel rounded to 2 decimals, the integer fields
exact). -/
def estimate_budget (dist : Spot → Spot → ℚ)
    (nxTour : List Spot → (ℕ → ℕ → ℚ) → List ℕ) (spots : List Spot)
    (prefs : TripPrefs) (should_rent_car : Bool) (car_info : List CarInfo)
    (fuel_price : ℚ) (ai_car_choice : ℤ) : Budget :=
  let budget_level := resolve_budget_level (prefs.budget.getD (.str "medium"))
  let num_people : ℤ := prefs.people.getD 1
  let num_days : ℤ := prefs.days.getD 1
  let bc := base_costs budget_level
  let daily_cost : ℤ := bc.1 + bc.2.1 + bc.2.2
  let base_total : ℤ := daily_cost * num_days * num_people
  let attraction_cost : ℤ := attraction_cost_total spots num_people
  let car_rental_cost : ℚ :=
    if should_rent_car then selected_car_price car_info ai_car_choice else 0
  let fuel_cost : ℚ :=
    if should_rent_car then
      total_route_distance dist (get_optimal_route dist nxTour spots) *
        fuel_efficiency budget_level / 100 * fuel_price
    else 0
  { total := pyRound2 (((base_total + attraction_cost : ℤ) : ℚ) + car_rental_cost + fuel_cost)
    accommodation := ((bc.1 * num_days * num_people : ℤ) : ℚ)
    food := ((bc.2.1 * num_days * num_people : ℤ) : ℚ)
    transport := ((bc.2.2 * num_days * num_people : ℤ) : ℚ)
    attractions := ((attraction_cost : ℤ) : ℚ)
    car_rental := pyRound2 car_rental_cost
    fuel_cost := pyRound2 fuel_cost }

/-- Concrete trip preferences and car list used by the budget witnesses. -/
def wprefs : TripPrefs := ⟨none, some 2, some 3⟩

def wcars : List CarInfo := [⟨40⟩]

/-! ## Day scheduling (format_daily_plan_to_itinerary, lines 206-268) -/

/-- Python int() truncation toward zero on an exact rational. -/
def pyInt (q : ℚ) : ℤ := if 0 ≤ q then ⌊q⌋ else -⌊-q⌋

/-- Python format spec {:02d}: at least two characters, zero padded. -/
def format02 (n : ℤ) : String :=
  if 0 ≤ n ∧ n < 10 then "0" ++ toString n else toString n

/-- The string stamped for an activity hour: f-string {int(h):02d}:00 —
the minutes are always 00. -/
def render_hour (n : ℤ) : String := format02 n ++ ":00"

/-- A spot dict copied and extended with start_time and end_time keys. -/
structure TimedSpot where
  base : Spot
  start_time : String
  end_time : String

instance : Inhabited TimedSpot := ⟨⟨default, "", ""⟩⟩

/-- One itinerary entry: the day number and its timed spots.  The calendar
date stamped alongside in the source is not modelled (no claim concerns
it). -/
structure ItineraryDay where
  day : ℕ
  spots : List TimedSpot

instance : Inhabited ItineraryDay := ⟨⟨0, []⟩⟩

/-- spot_obj.get("estimated_duration", 2): duration with default 2 hours. -/
def duration_of (s : Spot) : ℚ := s.estimated_duration.getD 2

/-- The timing loop: walk the day's spots accumulating start_offset_hours,
stamping start_time = 9 + offset and end_time = start + duration, both
rendered as whole hours. -/
def time_spots_aux (off : ℚ) : List Spot → List TimedSpot
  | [] => []
  | s :: rest =>
    { base := s,
      start_time := render_hour (pyInt (9 + off)),
      end_time := render_hour (pyInt (9 + off + duration_of s)) } ::
    time_spots_aux (off + duration_of s) rest

/-- The day-key filter: startswith("day") and re.match(day\d+): the first
three characters are d a y and the fourth is a digit. -/
def is_day_key (k : String) : Bool :=
  match k.toList with
  | 'd' :: 'a' :: 'y' :: c :: _ => c.isDigit
  | _ => false

/-- int(re.findall(r'\d+', x)[0]): the first maximal digit run. -/
def first_number (k : String) : ℕ :=
  digits_to_nat ((k.toList.dropWhile (fun c => !c.isDigit)).takeWhile Char.isDigit)

/-- Insertion preserving the relative order of equal keys (Python sorted is
stable). -/
def insert_sorted_by {α : Type} (key : α → ℕ) (x : α) : List α → List α
  | [] => [x]
  | y :: ys => if key y ≤ key x then y :: insert_sorted_by key x ys else x :: y :: ys

/-- Stable sort by a numeric key, modelling sorted(..., key=...). -/
def stable_sort_by {α : Type} (key : α → ℕ) (l : List α) : List α :=
  l.foldl (fun acc x => insert_sorted_by key x acc) []

/-- The filtered day keys of the plan dict, sorted numerically. -/
def sorted_day_keys (plan : List (String × List String)) : List String :=
  stable_sort_by first_number ((plan.map Prod.fst).filter is_day_key)

/-- Resolution of planned attraction names through all_spots_object_map;
unknown names are skipped with a warning. -/
def resolve_spot_names (names : List String) (spot_map : List (String × Spot)) : List Spot :=
  names.filterMap (fun n => spot_map.lookup n)

/-- The "location" in x and "lat" in x["location"] and "lng" in
x["location"] test used when building waypoints and checking the origin. -/
def has_coords (s : Spot) : Bool :=
  match s.location with
  | some l => l.lat.isSome && l.lng.isSome
  | none => false

/-- optimize_daily_route, both branches.  The external
InformationAgent.plan_with_waypoints call is the parameter wpPlan: none
models an unavailable InformationAgent (info_agent None, falling back to
the internal TSP solver); some plan models the live service, receiving the
origin and the location-filtered waypoints (the spots stand in for their
rendered lat,lng strings) and returning either none — a falsy reply or an
exception from the call, both of which fall back to the internal solver —
or the reply's waypoint_original_indices list (a missing key gives some
[]).  As in the source, the returned indices are applied to the UNFILTERED
day list as attractions_for_day[idx + 1], so a day can silently drop or
repeat spots; an out-of-range index raises IndexError, which the except
clause turns into the internal-solver fallback.  An origin without
location data returns the day unchanged. -/
def optimize_daily_route (dist : Spot → Spot → ℚ)
    (nxTour : List Spot → (ℕ → ℕ → ℚ) → List ℕ)
    (wpPlan : Option (Spot → List Spot → Option (List ℕ)))
    (attractions : List Spot) : List Spot :=
  if attractions.length ≤ 1 then attractions
  else
    match wpPlan with
    | none => get_optimal_route dist nxTour attractions
    | some plan =>
      let origin := attractions.getD 0 default
      let waypoints := (attractions.drop 1).filter has_coords
      if has_coords origin then
        match plan origin waypoints with
        | none => get_optimal_route dist nxTour attractions
        | some idxs =>
          if idxs.all (fun idx => idx + 1 < attractions.length) then
            origin :: idxs.map (fun idx => attractions.getD (idx + 1) default)
          else get_optimal_route dist nxTour attractions
      else attractions

/-- The spot objects visited on one planned day, route-optimized when the
day has more than one: the current_day_spot_objects_raw value that the
timing loop receives. -/
def day_spots_for (dist : Spot → Spot → ℚ)
    (nxTour : List Spot → (ℕ → ℕ → ℚ) → List ℕ)
    (wpPlan : Option (Spot → List Spot → Option (List ℕ)))
    (plan : List (String × List String)) (spot_map : List (String × Spot))
    (day_key : String) : List Spot :=
  let raw := resolve_spot_names ((plan.lookup day_key).getD []) spot_map
  if 1 < raw.length then optimize_daily_route dist nxTour wpPlan raw else raw

/-- format_daily_plan_to_itinerary: for each well-formed day key in
numeric order, resolve the day's attraction names, re-optimize the day's
route when it has more than one spot, and stamp sequential times from
09:00. -/
def format_daily_plan_to_itinerary (dist : Spot → Spot → ℚ)
    (nxTour : List Spot → (ℕ → ℕ → ℚ) → List ℕ)
    (wpPlan : Option (Spot → List Spot → Option (List ℕ)))
    (plan : List (String × List String)) (spot_map : List (String × Spot)) :
    List ItineraryDay :=
  (sorted_day_keys plan).map (fun day_key =>
    { day := first_number day_key,
      spots := time_spots_aux 0 (day_spots_for dist nxTour wpPlan plan spot_map day_key) })

/-- A tour builder satisfying the documented networkx contract on every
input: the identity cycle closed back to node 0. -/
def wtour_ham : List Spot → (ℕ → ℕ → ℚ) → List ℕ :=
  fun sp _ => List.range sp.length ++ [0]

/-- A four-hour attraction used by the C6 inputs. -/
def wspot_e : Spot := ⟨"e", "E", none, some 4, none⟩

def w6_plan : List (String × List String) := [("day1", ["E1", "E2", "E3"])]

def w6_map : List (String × Spot) := [("E1", wspot_e), ("E2", wspot_e), ("E3", wspot_e)]

/-- A one-and-a-half-hour attraction used by the C7 inputs. -/
def wspot_d : Spot := ⟨"d", "D", none, some (3/2), none⟩

def w7_plan : List (String × List String) := [("day1", ["D"])]

def w7_map : List (String × Spot) := [("D", wspot_d)]

/-- The rendering the claim describes: a clock time with true minutes,
HH:MM on a 24-hour clock. -/
def spec_render_hhmm (h : ℚ) : String :=
  format02 ⌊h⌋ ++ ":" ++ format02 ⌊(h - ⌊h⌋) * 60⌋

/-- Concrete instantiation of C10 discharging its hypotheses: a day of one
spot whose estimated_duration key is absent. -/
def w10_plan : List (String × List String) := [("day1", ["A"])]

def w10_map : List (String × Spot) := [("A", wspot_a)]

/-! ## Distance oracle (_calculate_distance, lines 136-166) -/

/-- math.radians: degrees to radians. -/
noncomputable def radians (x : ℝ) : ℝ := x * (Real.pi / 180)

/-- The haversine computation of _calculate_distance on Earth radius
6371 km: a = sin²(dlat/2) + cos(lat1)cos(lat2)sin²(dlon/2),
c = 2·asin(√a), distance = R·c. -/
noncomputable def haversine_distance (lat1 lon1 lat2 lon2 : ℝ) : ℝ :=
  6371 * (2 * Real.arcsin (Real.sqrt
    (Real.sin ((radians lat2 - radians lat1) / 2) ^ 2 +
      Real.cos (radians lat1) * Real.cos (radians lat2) *
        Real.sin ((radians lon2 - radians lon1) / 2) ^ 2)))

/-- The memoization key f-string: spot1 id, underscore, spot2 id — the
ids in call order, not canonicalized. -/
def cache_key (s1 s2 : Spot) : String := s1.id ++ "_" ++ s2.id

/-- _calculate_distance with the distances_cache dict threaded explicitly.
A missing location key on either side returns the constant fallback 1
without touching the cache; a cached key returns the stored value;
otherwise the four coordinates are read (a KeyError — Except.error — if
lat or lng is absent), the haversine distance computed and stored under
the directional key. -/
noncomputable def calculate_distance (cache : List (String × ℝ)) (spot1 spot2 : Spot) :
    Except Unit (ℝ × List (String × ℝ)) :=
  match spot1.location, spot2.location with
  | none, _ => .ok (1, cache)
  | _, none => .ok (1, cache)
  | some l1, some l2 =>
    match cache.lookup (cache_key spot1 spot2) with
    | some v => .ok (v, cache)
    | none =>
      match l1.lat, l1.lng, l2.lat, l2.lng with
      | some lat1, some lon1, some lat2, some lon2 =>
        .ok (haversine_distance lat1 lon1 lat2 lon2,
          (cache_key spot1 spot2, haversine_distance lat1 lon1 lat2 lon2) :: cache)
      | _, _, _, _ => .error ()

/-- Concrete spots with coordinates used by the C5 statements. -/
def wspot_p : Spot := ⟨"p", "P", some ⟨some 0, some 0⟩, none, none⟩

def wspot_q : Spot := ⟨"q", "Q", some ⟨some 1, some 1⟩, none, none⟩

/-- A spot whose location dict is present but holds neither lat nor lng. -/
def wspot_m : Spot := ⟨"m", "M", some ⟨none, none⟩, none, none⟩

/-! ## Theorems -/

theorem round_half_even_spec (x : ℚ) :
    ∃ c : ℤ, round_half_even x = ⌊x⌋ + c ∧ (c = 0 ∨ c = 1) ∧
      (c = 0 → Int.fract x ≤ 1/2) ∧ (c = 1 → 1/2 ≤ Int.fract x) := by
  unfold round_half_even
  split_ifs with h1 h2 h3
  · exact ⟨0, by ring, Or.inl rfl, fun _ => h1.le, fun h => by norm_num at h⟩
  · exact ⟨1, rfl, Or.inr rfl, fun h => by norm_num at h, fun _ => h2.le⟩
  · refine ⟨0, by ring, Or.inl rfl, fun _ => ?_, fun h => by norm_num at h⟩
    linarith [not_lt.mp h2]
  · refine ⟨1, rfl, Or.inr rfl, fun h => by norm_num at h, fun _ => ?_⟩
    linarith [not_lt.mp h1]

theorem round_half_even_intCast (n : ℤ) : round_half_even (n : ℚ) = n := by
  unfold round_half_even
  rw [Int.fract_intCast, Int.floor_intCast]
  norm_num

theorem round_half_even_nonneg {x : ℚ} (hx : 0 ≤ x) : 0 ≤ round_half_even x := by
  obtain ⟨c, hc, hc01, -, -⟩ := round_half_even_spec x
  have : 0 ≤ ⌊x⌋ := Int.floor_nonneg.mpr hx
  omega

/-- Adding an even integer commutes with round-half-even (evenness matters
only in the tie case, where parity of the floor decides). -/
theorem round_half_even_even_add (n : ℤ) (hn : n % 2 = 0) (x : ℚ) :
    round_half_even ((n : ℚ) + x) = n + round_half_even x := by
  simp only [round_half_even, Int.fract_int_add, Int.floor_int_add]
  split_ifs with h1 h2 h3 h4 <;> omega

/-- Combinatorial core of the rounding-tolerance bound: the four indicator
integers can never make the discrepancy reach two. -/
theorem round_indicator_bound (e cs cx cy : ℤ) (he : e = 0 ∨ e = 1) (hcs : cs = 0 ∨ cs = 1)
    (hcx : cx = 0 ∨ cx = 1) (hcy : cy = 0 ∨ cy = 1)
    (hb1 : ¬(cx = 0 ∧ cy = 0 ∧ cs = 1 ∧ e = 1)) (hb2 : ¬(cx = 1 ∧ cy = 1 ∧ e = 0)) :
    |e + cs - cx - cy| ≤ 1 := by
  rw [abs_le]
  omega

/-- Rounding almost commutes with addition: the results differ by at most
one unit in the last place. -/
theorem round_half_even_add_le (x y : ℚ) :
    |round_half_even (x + y) - round_half_even x - round_half_even y| ≤ 1 := by
  obtain ⟨cx, hcx, hcx01, hcx0, hcx1⟩ := round_half_even_spec x
  obtain ⟨cy, hcy, hcy01, hcy0, hcy1⟩ := round_half_even_spec y
  obtain ⟨cs, hcs, hcs01, hcs0, hcs1⟩ := round_half_even_spec (x + y)
  set a := Int.fract x with ha
  set b := Int.fract y with hb
  have ha0 : 0 ≤ a := Int.fract_nonneg x
  have ha1 : a < 1 := Int.fract_lt_one x
  have hb0 : 0 ≤ b := Int.fract_nonneg y
  have hb1 : b < 1 := Int.fract_lt_one y
  have hfloor_lo : ⌊x⌋ + ⌊y⌋ ≤ ⌊x + y⌋ := Int.le_floor_add x y
  have hfloor_hi : ⌊x + y⌋ ≤ ⌊x⌋ + ⌊y⌋ + 1 := by
    have := Int.le_floor_add_floor x y
    omega
  set e : ℤ := ⌊x + y⌋ - ⌊x⌋ - ⌊y⌋ with he
  clear_value e
  have he01 : e = 0 ∨ e = 1 := by omega
  have hfract_sum : Int.fract (x + y) = a + b - e := by
    have hx' : (⌊x⌋ : ℚ) + a = x := Int.floor_add_fract x
    have hy' : (⌊y⌋ : ℚ) + b = y := Int.floor_add_fract y
    have hs' : (⌊x + y⌋ : ℚ) + Int.fract (x + y) = x + y := Int.floor_add_fract (x + y)
    have : (⌊x + y⌋ : ℚ) = (⌊x⌋ : ℚ) + (⌊y⌋ : ℚ) + (e : ℚ) := by
      push_cast [he]; ring
    linarith
  rw [hcx, hcy, hcs]
  have hrw : ⌊x + y⌋ = ⌊x⌋ + ⌊y⌋ + e := by omega
  rw [hrw]
  have hbad1 : ¬(cx = 0 ∧ cy = 0 ∧ cs = 1 ∧ e = 1) := by
    rintro ⟨h1, h2, h3, h4⟩
    have ha' := hcx0 h1
    have hb' := hcy0 h2
    have hs' := hcs1 h3
    rw [hfract_sum, h4] at hs'
    push_cast at hs'
    linarith
  have hbad2 : ¬(cx = 1 ∧ cy = 1 ∧ e = 0) := by
    rintro ⟨h1, h2, h3⟩
    have ha' := hcx1 h1
    have hb' := hcy1 h2
    have hs' : Int.fract (x + y) = a + b - ((0 : ℤ) : ℚ) := by rw [hfract_sum, h3]
    have hlt := Int.fract_lt_one (x + y)
    rw [hs'] at hlt
    push_cast at hlt
    linarith
  have hring : ⌊x⌋ + ⌊y⌋ + e + cs - (⌊x⌋ + cx) - (⌊y⌋ + cy) = e + cs - cx - cy := by ring
  rw [hring]
  exact round_indicator_bound e cs cx cy he01 hcs01 hcx01 hcy01 hbad1 hbad2

/-- Rounding tolerance for the budget total: rounding an integer plus two
summands to two decimals stays within 1/100 of the sum of the integer and
the two individually rounded summands. -/
theorem pyRound2_int_add_bound (m : ℤ) (c f : ℚ) :
    |pyRound2 ((m : ℚ) + c + f) - ((m : ℚ) + pyRound2 c + pyRound2 f)| ≤ 1/100 := by
  have hm : (100 * m) % 2 = 0 := by omega
  have h1 : ((m : ℚ) + c + f) * 100 = ((100 * m : ℤ) : ℚ) + (c * 100 + f * 100) := by
    push_cast; ring
  have h2 := round_half_even_add_le (c * 100) (f * 100)
  unfold pyRound2
  rw [h1, round_half_even_even_add (100 * m) hm (c * 100 + f * 100)]
  have h3 : ((100 * m + round_half_even (c * 100 + f * 100) : ℤ) : ℚ) / 100 -
      ((m : ℚ) + (round_half_even (c * 100) : ℚ) / 100 + (round_half_even (f * 100) : ℚ) / 100) =
      ((round_half_even (c * 100 + f * 100) - round_half_even (c * 100) -
        round_half_even (f * 100) : ℤ) : ℚ) / 100 := by
    push_cast; ring
  rw [h3, abs_div]
  have h4 : |((round_half_even (c * 100 + f * 100) - round_half_even (c * 100) -
      round_half_even (f * 100) : ℤ) : ℚ)| ≤ 1 := by
    rw [← Int.cast_abs]
    exact_mod_cast h2
  have h5 : |(100 : ℚ)| = 100 := by norm_num
  rw [h5]
  exact (div_le_div_iff_of_pos_right (by norm_num)).mpr h4

theorem pyRound2_nonneg {x : ℚ} (hx : 0 ≤ x) : 0 ≤ pyRound2 x := by
  unfold pyRound2
  have : (0 : ℚ) ≤ (round_half_even (x * 100) : ℚ) := by
    exact_mod_cast round_half_even_nonneg (by positivity)
  positivity

theorem pyRound2_intCast (n : ℤ) : pyRound2 (n : ℚ) = n := by
  unfold pyRound2
  have h : (n : ℚ) * 100 = ((100 * n : ℤ) : ℚ) := by push_cast; ring
  rw [h, round_half_even_intCast]
  push_cast
  ring

theorem picks_mem_perm {α : Type} {l : List α} {x : α} {rest : List α}
    (h : (x, rest) ∈ picks l) : (x :: rest).Perm l := by
  induction l generalizing x rest with
  | nil => simp [picks] at h
  | cons y ys ih =>
    simp only [picks, List.mem_cons, List.mem_map, Prod.mk.injEq] at h
    rcases h with ⟨rfl, rfl⟩ | ⟨⟨a, r⟩, hmem, rfl, rfl⟩
    · exact List.Perm.refl _
    · exact (List.Perm.swap y a r).trans ((ih hmem).cons y)

theorem picks_mem_length {α : Type} {l : List α} {x : α} {rest : List α}
    (h : (x, rest) ∈ picks l) : rest.length + 1 = l.length := by
  have := (picks_mem_perm h).length_eq
  simpa using this

theorem perms_aux_mem_perm {α : Type} :
    ∀ (n : ℕ) (l : List α) (p : List α), l.length = n → p ∈ perms_aux n l → p.Perm l := by
  intro n
  induction n with
  | zero =>
    intro l p hl hp
    have : l = [] := List.length_eq_zero.mp hl
    subst this
    simp [perms_aux] at hp
    simp [hp]
  | succ n ih =>
    intro l p hl hp
    cases l with
    | nil => simp at hl
    | cons x xs =>
      simp only [perms_aux, List.mem_flatMap, List.mem_map] at hp
      obtain ⟨⟨a, rest⟩, hpick, q, hq, rfl⟩ := hp
      have hlen : rest.length = n := by
        have hplen := picks_mem_length hpick
        simp only [List.length_cons] at hl hplen
        omega
      exact ((ih rest q hlen hq).cons a).trans (picks_mem_perm hpick)

theorem perms_aux_ne_nil {α : Type} : ∀ (n : ℕ) (l : List α), perms_aux n l ≠ [] := by
  intro n
  induction n with
  | zero => intro l; simp [perms_aux]
  | succ n ih =>
    intro l
    cases l with
    | nil => simp [perms_aux]
    | cons x xs =>
      simp only [perms_aux, picks, List.flatMap_cons]
      intro hcontra
      have h1 := List.append_eq_nil.mp hcontra
      have h2 := List.map_eq_nil_iff.mp h1.1
      exact ih xs h2

theorem picks_self_mem {α : Type} [DecidableEq α] {l : List α} {x : α} (h : x ∈ l) :
    (x, l.erase x) ∈ picks l := by
  induction l with
  | nil => simp at h
  | cons y ys ih =>
    by_cases hxy : x = y
    · subst hxy
      simp [picks, List.erase_cons_head]
    · have hx : x ∈ ys := by
        rcases List.mem_cons.mp h with h' | h'
        · exact absurd h' hxy
        · exact h'
      have herase : (y :: ys).erase x = y :: ys.erase x := by
        rw [List.erase_cons]
        simp [Ne.symm hxy]
      rw [herase]
      simp only [picks, List.mem_cons, List.mem_map]
      exact Or.inr ⟨(x, ys.erase x), ih hx, rfl⟩

theorem perms_lex_complete {α : Type} [DecidableEq α] :
    ∀ (p l : List α), p.Perm l → p ∈ perms_lex l := by
  intro p
  induction p with
  | nil =>
    intro l h
    have : l = [] := h.symm.eq_nil
    subst this
    simp [perms_lex, perms_aux]
  | cons x q ih =>
    intro l h
    have hx : x ∈ l := h.subset (List.mem_cons_self x q)
    have hq : q.Perm (l.erase x) := (List.cons_perm_iff_perm_erase.mp h).2
    have hlen : l.length = (l.erase x).length + 1 := by
      have h1 := List.length_erase_of_mem hx
      have h2 : 0 < l.length := List.length_pos_of_mem hx
      omega
    have hql : q ∈ perms_lex (l.erase x) := ih (l.erase x) hq
    unfold perms_lex at hql ⊢
    rw [hlen]
    cases l with
    | nil => simp at hx
    | cons y ys =>
      simp only [perms_aux, List.mem_flatMap, List.mem_map]
      refine ⟨(x, (y :: ys).erase x), picks_self_mem hx, q, ?_, rfl⟩
      have : ((y :: ys).erase x).length + 1 = (y :: ys).length := by omega
      rw [show ((y :: ys).erase x).length = (y :: ys).length - 1 by omega] at hql
      have hlen2 : (y :: ys).length - 1 = ((y :: ys).erase x).length := by omega
      rw [hlen2] at hql
      exact hql

theorem perms_lex_mem_perm {α : Type} {l p : List α} (h : p ∈ perms_lex l) : p.Perm l :=
  perms_aux_mem_perm l.length l p rfl h

theorem perms_lex_ne_nil {α : Type} (l : List α) : perms_lex l ≠ [] :=
  perms_aux_ne_nil l.length l

/-- The brute-force fold either never improves on the incoming bound (and
returns the accumulator unchanged), or returns the first permutation in
iteration order achieving the minimum, with its cost. -/
theorem tsp_foldl_spec (c : List ℕ → ℚ) :
    ∀ (l : List (List ℕ)) (b : WithTop ℚ) (p₀ : List ℕ),
      (l.foldl (tsp_step c) (b, p₀) = (b, p₀) ∧ ∀ q ∈ l, ¬((c q : WithTop ℚ) < b))
      ∨ (∃ q l₁ l₂, l = l₁ ++ q :: l₂ ∧
          l.foldl (tsp_step c) (b, p₀) = ((c q : WithTop ℚ), q) ∧
          (c q : WithTop ℚ) < b ∧
          (∀ r ∈ l₁, c q < c r) ∧ (∀ r ∈ l₂, c q ≤ c r)) := by
  intro l
  induction l with
  | nil => intro b p₀; exact Or.inl ⟨rfl, by simp⟩
  | cons x l ih =>
    intro b p₀
    rw [List.foldl_cons]
    by_cases hx : (c x : WithTop ℚ) < b
    · rw [show tsp_step c (b, p₀) x = ((c x : WithTop ℚ), x) from by simp [tsp_step, hx]]
      rcases ih ((c x : WithTop ℚ)) x with ⟨heq, hall⟩ | ⟨q, l₁, l₂, hsplit, heq, hlt, h₁, h₂⟩
      · refine Or.inr ⟨x, [], l, by simp, heq, hx, by simp, fun r hr => ?_⟩
        have := hall r hr
        rw [WithTop.coe_lt_coe] at this
        exact not_lt.mp this
      · have hqx : c q < c x := WithTop.coe_lt_coe.mp hlt
        refine Or.inr ⟨q, x :: l₁, l₂, by simp [hsplit], heq, ?_, ?_, h₂⟩
        · exact lt_trans hlt hx
        · intro r hr
          rcases List.mem_cons.mp hr with rfl | hr'
          · exact hqx
          · exact h₁ r hr'
    · rw [show tsp_step c (b, p₀) x = (b, p₀) from by simp [tsp_step, hx]]
      rcases ih b p₀ with ⟨heq, hall⟩ | ⟨q, l₁, l₂, hsplit, heq, hlt, h₁, h₂⟩
      · refine Or.inl ⟨heq, fun q hq => ?_⟩
        rcases List.mem_cons.mp hq with rfl | hq'
        · exact hx
        · exact hall q hq'
      · refine Or.inr ⟨q, x :: l₁, l₂, by simp [hsplit], heq, hlt, ?_, h₂⟩
        intro r hr
        rcases List.mem_cons.mp hr with rfl | hr'
        · have hbr : b ≤ (c r : WithTop ℚ) := not_lt.mp hx
          exact WithTop.coe_lt_coe.mp (lt_of_lt_of_le hlt hbr)
        · exact h₁ r hr'

/-- find? with an equality-of-cost predicate, applied to a split list whose
prefix has strictly larger costs, returns the split point. -/
theorem find?_cost_eq {α : Type} (c : α → ℚ) (q : α) :
    ∀ l₁ : List α, (∀ r ∈ l₁, c q < c r) → ∀ l₂ : List α,
      (l₁ ++ q :: l₂).find? (fun r => decide (c r = c q)) = some q := by
  intro l₁
  induction l₁ with
  | nil =>
    intro _ l₂
    simp [List.find?_cons]
  | cons r l₁ ih =>
    intro h l₂
    have hne : ¬(c r = c q) := by
      have := h r (List.mem_cons_self r l₁)
      exact fun heq => absurd heq (by intro he; rw [he] at this; exact lt_irrefl _ this)
    simp only [List.cons_append, List.find?_cons, decide_eq_false hne]
    exact ih (fun r' hr' => h r' (List.mem_cons_of_mem r hr')) l₂

/-- Rebuilding a list from range indices: mapping getD over range(length)
is the identity. -/
theorem map_getD_range (l : List Spot) :
    (List.range l.length).map (fun i => l.getD i default) = l := by
  induction l with
  | nil => simp
  | cons x xs ih =>
    rw [List.length_cons, List.range_succ_eq_map, List.map_cons, List.map_map]
    have hcomp : ((fun i => (x :: xs).getD i default) ∘ Nat.succ) =
        (fun i => xs.getD i default) := by
      funext i
      simp [List.getD_cons_succ]
    rw [hcomp, ih]
    simp

/-- Mapping range indices through a permutation of range(length) rebuilds a
permutation of the original list. -/
theorem perm_range_map_getD {l : List Spot} {p : List ℕ}
    (h : p.Perm (List.range l.length)) :
    (p.map (fun i => l.getD i default)).Perm l := by
  have := h.map (fun i => l.getD i default)
  rw [map_getD_range] at this
  exact this

/-- Full characterization of _solve_tsp_brute_force on a nonempty input:
it returns the spots reordered by the first permutation, in
itertools.permutations order, achieving the minimum open-path cost. -/
theorem solve_tsp_brute_force_spec (spots : List Spot) (d : ℕ → ℕ → ℚ) :
    ∃ best ∈ perms_lex (List.range spots.length),
      solve_tsp_brute_force spots d = best.map (fun i => spots.getD i default) ∧
      (∀ q ∈ perms_lex (List.range spots.length), path_cost d best ≤ path_cost d q) ∧
      (perms_lex (List.range spots.length)).find?
        (fun r => decide (path_cost d r = path_cost d best)) = some best := by
  rcases tsp_foldl_spec (path_cost d) (perms_lex (List.range spots.length)) ⊤
      (List.range spots.length) with ⟨heq, hall⟩ | ⟨q, l₁, l₂, hsplit, heq, hlt, h₁, h₂⟩
  · exfalso
    obtain ⟨p, hp⟩ := List.exists_mem_of_ne_nil _ (perms_lex_ne_nil (List.range spots.length))
    exact hall p hp (WithTop.coe_lt_top _)
  · refine ⟨q, by rw [hsplit]; simp, ?_, ?_, ?_⟩
    · unfold solve_tsp_brute_force
      rw [heq]
    · intro r hr
      rw [hsplit] at hr
      rcases List.mem_append.mp hr with hr' | hr'
      · exact le_of_lt (h₁ r hr')
      · rcases List.mem_cons.mp hr' with rfl | hr''
        · exact le_refl _
        · exact h₂ r hr''
    · rw [hsplit]
      exact find?_cost_eq (path_cost d) q l₁ h₁ l₂

/-- Shared permutation property of get_optimal_route: under the documented
contract of the external tour builder (used only above 5 stops), the result
is a permutation of the input. -/
theorem get_optimal_route_perm (dist : Spot → Spot → ℚ)
    (nxTour : List Spot → (ℕ → ℕ → ℚ) → List ℕ) (spots : List Spot)
    (htour : 5 < spots.length →
      ((nxTour spots (get_distance_matrix dist spots)).dropLast).Perm
        (List.range spots.length)) :
    (get_optimal_route dist nxTour spots).Perm spots := by
  unfold get_optimal_route
  split_ifs with h1 h5
  · exact List.Perm.refl spots
  · obtain ⟨best, hmem, hres, -, -⟩ :=
      solve_tsp_brute_force_spec spots (get_distance_matrix dist spots)
    rw [hres]
    exact perm_range_map_getD (perms_lex_mem_perm hmem)
  · unfold solve_tsp_approximate
    exact perm_range_map_getD (htour (by omega))

/-- C2: for every input list of attractions, the list returned by
RouteAgent.get_optimal_route is a permutation of the input (same length,
same multiset of elements); lists of length 0 or 1 are returned unchanged.
Above 5 stops this relies on the external networkx solver's documented
contract (a Hamiltonian cycle over all nodes, closing node repeated), taken
as the hypothesis on nxTour. -/
theorem claim_C2_route_is_permutation (dist : Spot → Spot → ℚ)
    (nxTour : List Spot → (ℕ → ℕ → ℚ) → List ℕ) (spots : List Spot)
    (htour : 5 < spots.length →
      ((nxTour spots (get_distance_matrix dist spots)).dropLast).Perm
        (List.range spots.length)) :
    (get_optimal_route dist nxTour spots).Perm spots ∧
    (spots.length ≤ 1 → get_optimal_route dist nxTour spots = spots) := by
  refine ⟨get_optimal_route_perm dist nxTour spots htour, fun h1 => ?_⟩
  unfold get_optimal_route
  rw [if_pos h1]

/-- Concrete instantiation of C2 discharging its hypotheses: two spots, a
constant distance function, and a trivial tour builder. -/
theorem claim_C2_witness :
    (5 < ([wspot_a, wspot_b] : List Spot).length →
      ((wtour [wspot_a, wspot_b] (get_distance_matrix wdist [wspot_a, wspot_b])).dropLast).Perm
        (List.range ([wspot_a, wspot_b] : List Spot).length)) ∧
    ((get_optimal_route wdist wtour [wspot_a, wspot_b]).Perm [wspot_a, wspot_b] ∧
      (([wspot_a, wspot_b] : List Spot).length ≤ 1 →
        get_optimal_route wdist wtour [wspot_a, wspot_b] = [wspot_a, wspot_b])) := by
  constructor
  · intro h
    simp at h
  · exact claim_C2_route_is_permutation wdist wtour [wspot_a, wspot_b] (fun h => by simp at h)

/-- C1: for 2 to 5 attractions, with the distance matrix derived from them,
get_optimal_route returns the spots reordered by a permutation of the index
range that (a) attains the minimum open-path cost among all permutations
and (b) is the first permutation attaining that minimum in the iteration
order of itertools.permutations (embedded as perms_lex); the strict
less-than update gives first-minimum tie-breaking. -/
theorem claim_C1_brute_force_first_minimum (dist : Spot → Spot → ℚ)
    (nxTour : List Spot → (ℕ → ℕ → ℚ) → List ℕ) (spots : List Spot)
    (h2 : 2 ≤ spots.length) (h5 : spots.length ≤ 5) :
    ∃ best ∈ perms_lex (List.range spots.length),
      get_optimal_route dist nxTour spots = best.map (fun i => spots.getD i default) ∧
      (∀ q, q.Perm (List.range spots.length) →
        path_cost (get_distance_matrix dist spots) best ≤
          path_cost (get_distance_matrix dist spots) q) ∧
      (perms_lex (List.range spots.length)).find?
        (fun r => decide (path_cost (get_distance_matrix dist spots) r =
          path_cost (get_distance_matrix dist spots) best)) = some best := by
  obtain ⟨best, hmem, hres, hmin, hfind⟩ :=
    solve_tsp_brute_force_spec spots (get_distance_matrix dist spots)
  refine ⟨best, hmem, ?_, ?_, hfind⟩
  · unfold get_optimal_route
    rw [if_neg (by omega), if_pos h5]
    exact hres
  · intro q hq
    exact hmin q (perms_lex_complete q (List.range spots.length) hq)

/-- Concrete instantiation of C1 discharging its hypotheses, on a
three-spot input. -/
theorem claim_C1_witness :
    (2 ≤ ([wspot_a, wspot_b, wspot_c] : List Spot).length ∧
      ([wspot_a, wspot_b, wspot_c] : List Spot).length ≤ 5) ∧
    (∃ best ∈ perms_lex (List.range ([wspot_a, wspot_b, wspot_c] : List Spot).length),
      get_optimal_route wdist wtour [wspot_a, wspot_b, wspot_c] =
        best.map (fun i => ([wspot_a, wspot_b, wspot_c] : List Spot).getD i default) ∧
      (∀ q, q.Perm (List.range ([wspot_a, wspot_b, wspot_c] : List Spot).length) →
        path_cost (get_distance_matrix wdist [wspot_a, wspot_b, wspot_c]) best ≤
          path_cost (get_distance_matrix wdist [wspot_a, wspot_b, wspot_c]) q) ∧
      (perms_lex (List.range ([wspot_a, wspot_b, wspot_c] : List Spot).length)).find?
        (fun r => decide (path_cost (get_distance_matrix wdist [wspot_a, wspot_b, wspot_c]) r =
          path_cost (get_distance_matrix wdist [wspot_a, wspot_b, wspot_c]) best)) =
        some best) :=
  ⟨⟨by decide, by decide⟩,
    claim_C1_brute_force_first_minimum wdist wtour [wspot_a, wspot_b, wspot_c]
      (by decide) (by decide)⟩

theorem base_costs_nonneg (level : String) :
    0 ≤ (base_costs level).1 ∧ 0 ≤ (base_costs level).2.1 ∧ 0 ≤ (base_costs level).2.2 := by
  unfold base_costs
  split_ifs <;> norm_num

theorem cost_map_nonneg (pl : ℤ) : 0 ≤ cost_map pl := by
  unfold cost_map
  split_ifs <;> norm_num

theorem fuel_efficiency_nonneg (level : String) : 0 ≤ fuel_efficiency level := by
  unfold fuel_efficiency
  split_ifs <;> norm_num

theorem attraction_cost_total_nonneg (spots : List Spot) (np : ℤ) (hnp : 0 ≤ np) :
    0 ≤ attraction_cost_total spots np := by
  unfold attraction_cost_total
  suffices h : ∀ init : ℤ, 0 ≤ init →
      0 ≤ spots.foldl (fun acc spot => acc + cost_map (spot.price_level.getD 2) * np) init by
    exact h 0 le_rfl
  induction spots with
  | nil => intro init h0; simpa using h0
  | cons s rest ih =>
    intro init h0
    rw [List.foldl_cons]
    exact ih _ (by have := cost_map_nonneg (s.price_level.getD 2); positivity)

theorem total_route_distance_nonneg (dist : Spot → Spot → ℚ)
    (hdist : ∀ a b, 0 ≤ dist a b) : ∀ l, 0 ≤ total_route_distance dist l := by
  intro l
  induction l with
  | nil => simp [total_route_distance]
  | cons a rest ih =>
    cases rest with
    | nil => simp [total_route_distance]
    | cons b rest' => exact add_nonneg (hdist a b) ih

theorem selected_car_price_nonneg (car_info : List CarInfo) (choice : ℤ)
    (hcar : ∀ ci ∈ car_info, 0 ≤ ci.price) : 0 ≤ selected_car_price car_info choice := by
  unfold selected_car_price
  set n := (if 1 ≤ choice ∧ choice ≤ car_info.length then choice - 1 else 0).toNat
  by_cases hlt : n < car_info.length
  · rw [List.getD_eq_getElem _ _ hlt]
    exact hcar _ (List.getElem_mem hlt)
  · rw [List.getD_eq_default _ _ (not_lt.mp hlt)]
    exact le_rfl

section BudgetFacts

variable (dist : Spot → Spot → ℚ) (nxTour : List Spot → (ℕ → ℕ → ℚ) → List ℕ)
  (spots : List Spot) (prefs : TripPrefs) (rent : Bool) (car_info : List CarInfo)
  (fuel_price : ℚ) (choice : ℤ)

theorem estimate_budget_total_eq :
    (estimate_budget dist nxTour spots prefs rent car_info fuel_price choice).total =
      pyRound2
        (((((base_costs (resolve_budget_level (prefs.budget.getD (.str "medium")))).1 +
            (base_costs (resolve_budget_level (prefs.budget.getD (.str "medium")))).2.1 +
            (base_costs (resolve_budget_level (prefs.budget.getD (.str "medium")))).2.2) *
            prefs.days.getD 1 * prefs.people.getD 1 +
          attraction_cost_total spots (prefs.people.getD 1) : ℤ) : ℚ) +
        (if rent then selected_car_price car_info choice else 0) +
        (if rent then
            total_route_distance dist (get_optimal_route dist nxTour spots) *
              fuel_efficiency (resolve_budget_level (prefs.budget.getD (.str "medium"))) / 100 *
              fuel_price
          else 0)) := rfl

theorem estimate_budget_accommodation_eq :
    (estimate_budget dist nxTour spots prefs rent car_info fuel_price choice).accommodation =
      (((base_costs (resolve_budget_level (prefs.budget.getD (.str "medium")))).1 *
        prefs.days.getD 1 * prefs.people.getD 1 : ℤ) : ℚ) := rfl

theorem estimate_budget_food_eq :
    (estimate_budget dist nxTour spots prefs rent car_info fuel_price choice).food =
      (((base_costs (resolve_budget_level (prefs.budget.getD (.str "medium")))).2.1 *
        prefs.days.getD 1 * prefs.people.getD 1 : ℤ) : ℚ) := rfl

theorem estimate_budget_transport_eq :
    (estimate_budget dist nxTour spots prefs rent car_info fuel_price choice).transport =
      (((base_costs (resolve_budget_level (prefs.budget.getD (.str "medium")))).2.2 *
        prefs.days.getD 1 * prefs.people.getD 1 : ℤ) : ℚ) := rfl

theorem estimate_budget_attractions_eq :
    (estimate_budget dist nxTour spots prefs rent car_info fuel_price choice).attractions =
      ((attraction_cost_total spots (prefs.people.getD 1) : ℤ) : ℚ) := rfl

theorem estimate_budget_car_eq :
    (estimate_budget dist nxTour spots prefs rent car_info fuel_price choice).car_rental =
      pyRound2 (if rent then selected_car_price car_info choice else 0) := rfl

theorem estimate_budget_fuel_eq :
    (estimate_budget dist nxTour spots prefs rent car_info fuel_price choice).fuel_cost =
      pyRound2 (if rent then
          total_route_distance dist (get_optimal_route dist nxTour spots) *
            fuel_efficiency (resolve_budget_level (prefs.budget.getD (.str "medium"))) / 100 *
            fuel_price
        else 0) := rfl

end BudgetFacts

/-- C3 counterexample: with a rented car whose listed price is negative
(a well-typed input), the returned car_rental field is negative, refuting
the unconditional non-negativity of all seven fields. -/
theorem claim_C3_counterexample :
    (estimate_budget wdist wtour [] ⟨none, some 1, some 1⟩ true [⟨-5⟩] 0 1).car_rental =
      -5 ∧ ¬(0 ≤ (-5 : ℚ)) := by
  constructor
  · have h1 : (estimate_budget wdist wtour [] ⟨none, some 1, some 1⟩ true [⟨-5⟩] 0 1).car_rental
        = pyRound2 ((-5 : ℤ) : ℚ) := by
      rw [estimate_budget_car_eq]
      norm_num [selected_car_price]
    rw [h1, pyRound2_intCast]
    norm_num
  · norm_num

/-- C3 amended: the budget dictionary returned by estimate_budget always
satisfies total = accommodation + food + transport + attractions +
car_rental + fuel_cost within a tolerance of 0.01, unconditionally; and
all seven fields are non-negative provided the people and day counts, the
listed car prices and the fuel price are non-negative and pairwise
distances are non-negative (as the code's distance function always is). -/
theorem claim_C3_budget_sum_and_nonneg (dist : Spot → Spot → ℚ)
    (nxTour : List Spot → (ℕ → ℕ → ℚ) → List ℕ) (spots : List Spot)
    (prefs : TripPrefs) (rent : Bool) (car_info : List CarInfo)
    (fuel_price : ℚ) (choice : ℤ) :
    |(estimate_budget dist nxTour spots prefs rent car_info fuel_price choice).total -
      ((estimate_budget dist nxTour spots prefs rent car_info fuel_price choice).accommodation +
       (estimate_budget dist nxTour spots prefs rent car_info fuel_price choice).food +
       (estimate_budget dist nxTour spots prefs rent car_info fuel_price choice).transport +
       (estimate_budget dist nxTour spots prefs rent car_info fuel_price choice).attractions +
       (estimate_budget dist nxTour spots prefs rent car_info fuel_price choice).car_rental +
       (estimate_budget dist nxTour spots prefs rent car_info fuel_price choice).fuel_cost)| ≤
      1/100 ∧
    ((∀ a b, 0 ≤ dist a b) → 0 ≤ prefs.people.getD 1 → 0 ≤ prefs.days.getD 1 →
      (∀ ci ∈ car_info, 0 ≤ ci.price) → 0 ≤ fuel_price →
      (0 ≤ (estimate_budget dist nxTour spots prefs rent car_info fuel_price choice).total ∧
       0 ≤ (estimate_budget dist nxTour spots prefs rent car_info fuel_price
        choice).accommodation ∧
       0 ≤ (estimate_budget dist nxTour spots prefs rent car_info fuel_price choice).food ∧
       0 ≤ (estimate_budget dist nxTour spots prefs rent car_info fuel_price choice).transport ∧
       0 ≤ (estimate_budget dist nxTour spots prefs rent car_info fuel_price
        choice).attractions ∧
       0 ≤ (estimate_budget dist nxTour spots prefs rent car_info fuel_price
        choice).car_rental ∧
       0 ≤ (estimate_budget dist nxTour spots prefs rent car_info fuel_price
        choice).fuel_cost)) := by
  rw [estimate_budget_total_eq, estimate_budget_accommodation_eq, estimate_budget_food_eq,
    estimate_budget_transport_eq, estimate_budget_attractions_eq, estimate_budget_car_eq,
    estimate_budget_fuel_eq]
  set lvl := resolve_budget_level (prefs.budget.getD (.str "medium")) with hlvl
  set np := prefs.people.getD 1 with hnp
  set nd := prefs.days.getD 1 with hnd
  set m : ℤ := ((base_costs lvl).1 + (base_costs lvl).2.1 + (base_costs lvl).2.2) * nd * np +
    attraction_cost_total spots np with hm
  set c : ℚ := if rent then selected_car_price car_info choice else 0 with hc
  set f : ℚ := if rent then
      total_route_distance dist (get_optimal_route dist nxTour spots) *
        fuel_efficiency lvl / 100 * fuel_price
    else 0 with hf
  constructor
  · have hfields : (((base_costs lvl).1 * nd * np : ℤ) : ℚ) +
        (((base_costs lvl).2.1 * nd * np : ℤ) : ℚ) +
        (((base_costs lvl).2.2 * nd * np : ℤ) : ℚ) +
        ((attraction_cost_total spots np : ℤ) : ℚ) = ((m : ℤ) : ℚ) := by
      rw [hm]
      push_cast
      ring
    have hbound := pyRound2_int_add_bound m c f
    calc |pyRound2 (((m : ℤ) : ℚ) + c + f) -
          ((((base_costs lvl).1 * nd * np : ℤ) : ℚ) +
           (((base_costs lvl).2.1 * nd * np : ℤ) : ℚ) +
           (((base_costs lvl).2.2 * nd * np : ℤ) : ℚ) +
           ((attraction_cost_total spots np : ℤ) : ℚ) + pyRound2 c + pyRound2 f)|
        = |pyRound2 (((m : ℤ) : ℚ) + c + f) - (((m : ℤ) : ℚ) + pyRound2 c + pyRound2 f)| := by
          rw [show (((base_costs lvl).1 * nd * np : ℤ) : ℚ) +
              (((base_costs lvl).2.1 * nd * np : ℤ) : ℚ) +
              (((base_costs lvl).2.2 * nd * np : ℤ) : ℚ) +
              ((attraction_cost_total spots np : ℤ) : ℚ) + pyRound2 c + pyRound2 f =
              ((m : ℤ) : ℚ) + pyRound2 c + pyRound2 f from by rw [← hfields]]
      _ ≤ 1/100 := hbound
  · intro hdist hppl hdays hcar hfuel
    obtain ⟨hb1, hb2, hb3⟩ := base_costs_nonneg lvl
    have hA : 0 ≤ attraction_cost_total spots np := attraction_cost_total_nonneg spots np hppl
    have hm0 : 0 ≤ m := by
      rw [hm]
      have : 0 ≤ ((base_costs lvl).1 + (base_costs lvl).2.1 + (base_costs lvl).2.2) * nd * np := by
        positivity
      omega
    have hc0 : 0 ≤ c := by
      rw [hc]
      split_ifs
      · exact selected_car_price_nonneg car_info choice hcar
      · exact le_rfl
    have hf0 : 0 ≤ f := by
      rw [hf]
      split_ifs
      · have h1 := total_route_distance_nonneg dist hdist (get_optimal_route dist nxTour spots)
        have h2 := fuel_efficiency_nonneg lvl
        positivity
      · exact le_rfl
    refine ⟨?_, ?_, ?_, ?_, ?_, ?_, ?_⟩
    · apply pyRound2_nonneg
      have : (0 : ℚ) ≤ ((m : ℤ) : ℚ) := by exact_mod_cast hm0
      linarith
    · have : (0 : ℤ) ≤ (base_costs lvl).1 * nd * np := by positivity
      exact_mod_cast this
    · have : (0 : ℤ) ≤ (base_costs lvl).2.1 * nd * np := by positivity
      exact_mod_cast this
    · have : (0 : ℤ) ≤ (base_costs lvl).2.2 * nd * np := by positivity
      exact_mod_cast this
    · exact_mod_cast hA
    · exact pyRound2_nonneg hc0
    · exact pyRound2_nonneg hf0

/-- Concrete instantiation of the amended C3 discharging its hypotheses. -/
theorem claim_C3_witness :
    ((∀ a b, 0 ≤ wdist a b) ∧ 0 ≤ wprefs.people.getD 1 ∧ 0 ≤ wprefs.days.getD 1 ∧
      (∀ ci ∈ wcars, 0 ≤ ci.price) ∧ 0 ≤ (3/2 : ℚ)) ∧
    (|(estimate_budget wdist wtour [wspot_a] wprefs true wcars (3/2) 1).total -
      ((estimate_budget wdist wtour [wspot_a] wprefs true wcars (3/2) 1).accommodation +
       (estimate_budget wdist wtour [wspot_a] wprefs true wcars (3/2) 1).food +
       (estimate_budget wdist wtour [wspot_a] wprefs true wcars (3/2) 1).transport +
       (estimate_budget wdist wtour [wspot_a] wprefs true wcars (3/2) 1).attractions +
       (estimate_budget wdist wtour [wspot_a] wprefs true wcars (3/2) 1).car_rental +
       (estimate_budget wdist wtour [wspot_a] wprefs true wcars (3/2) 1).fuel_cost)| ≤
      1/100 ∧
    (0 ≤ (estimate_budget wdist wtour [wspot_a] wprefs true wcars (3/2) 1).total ∧
     0 ≤ (estimate_budget wdist wtour [wspot_a] wprefs true wcars (3/2) 1).accommodation ∧
     0 ≤ (estimate_budget wdist wtour [wspot_a] wprefs true wcars (3/2) 1).food ∧
     0 ≤ (estimate_budget wdist wtour [wspot_a] wprefs true wcars (3/2) 1).transport ∧
     0 ≤ (estimate_budget wdist wtour [wspot_a] wprefs true wcars (3/2) 1).attractions ∧
     0 ≤ (estimate_budget wdist wtour [wspot_a] wprefs true wcars (3/2) 1).car_rental ∧
     0 ≤ (estimate_budget wdist wtour [wspot_a] wprefs true wcars (3/2) 1).fuel_cost)) :=
  ⟨⟨fun _ _ => by norm_num [wdist], by decide, by decide, by decide, by norm_num⟩,
    (claim_C3_budget_sum_and_nonneg wdist wtour [wspot_a] wprefs true wcars (3/2) 1).1,
    (claim_C3_budget_sum_and_nonneg wdist wtour [wspot_a] wprefs true wcars (3/2) 1).2
      (fun _ _ => by norm_num [wdist]) (by decide) (by decide) (by decide) (by norm_num)⟩

/-- Cutting at a character that does not occur leaves the string unchanged. -/
theorem take_until_not_contains (c : Char) (s : String)
    (h : s.toList.contains c = false) : take_until c s = s := by
  cases s with
  | mk data =>
    unfold take_until
    have hdata : (String.mk data).toList = data := rfl
    rw [hdata] at h ⊢
    have hall : ∀ a ∈ data, (fun ch => decide (ch ≠ c)) a = true := by
      intro a ha
      simp only [decide_eq_true_eq]
      intro hac
      subst hac
      rw [List.contains_eq_any_beq] at h
      have htrue : (data.any fun y => a == y) = true :=
        List.any_eq_true.mpr ⟨a, ha, by simp⟩
      rw [htrue] at h
      cases h
    congr 1
    exact List.takeWhile_eq_self_iff.mpr hall

/-- C4 counterexample: the budget tier string "low" is not used directly;
it fails numeric parsing and resolves to "medium". -/
theorem claim_C4_counterexample :
    resolve_budget_level (.str "low") = "medium" ∧ "medium" ≠ "low" :=
  ⟨rfl, by decide⟩

/-- C4 (amended): estimate_budget's tier resolution never recognizes the
tier strings directly: every string is stripped of currency symbols and
commas, cut at the lower bound of a dash-separated range when a dash is
present, and parsed as a number, classified low below 1000, medium below
3000, and high otherwise; on any parse failure (including the strings low,
medium and high themselves) the tier is "medium" and no exception escapes. -/
theorem claim_C4_tier_resolution (s : String) :
    (∀ v : ℚ, pyFloat (take_until '-' (take_until '–' (strip_currency s))) = some v →
      resolve_budget_level (.str s) =
        (if v < 1000 then "low" else if v < 3000 then "medium" else "high")) ∧
    (pyFloat (take_until '-' (take_until '–' (strip_currency s))) = none →
      resolve_budget_level (.str s) = "medium") ∧
    resolve_budget_level (.str "low") = "medium" ∧
    resolve_budget_level (.str "high") = "medium" := by
  have hs2 : (if (strip_currency s).toList.contains '–' ∨ (strip_currency s).toList.contains '-'
      then take_until '-' (take_until '–' (strip_currency s))
      else strip_currency s) = take_until '-' (take_until '–' (strip_currency s)) := by
    split_ifs with h
    · rfl
    · push_neg at h
      obtain ⟨h1, h2⟩ := h
      simp only [ne_eq, Bool.not_eq_true] at h1 h2
      rw [take_until_not_contains '–' (strip_currency s) h1,
        take_until_not_contains '-' (strip_currency s) h2]
  refine ⟨?_, ?_, rfl, rfl⟩
  · intro v hv
    simp only [resolve_budget_level]
    rw [hs2, hv]
  · intro hv
    simp only [resolve_budget_level]
    rw [hs2, hv]

/-- Concrete instantiation of C4: the range string "$2,500" is stripped,
parsed to 2500 and classified by the thresholds (giving "medium"). -/
theorem claim_C4_witness :
    pyFloat (take_until '-' (take_until '–' (strip_currency "$2,500"))) = some 2500 ∧
    resolve_budget_level (.str "$2,500") =
      (if (2500 : ℚ) < 1000 then "low" else if (2500 : ℚ) < 3000 then "medium" else "high") :=
  ⟨by decide, (claim_C4_tier_resolution "$2,500").1 2500 (by decide)⟩

/-- C9: every non-string budget value (the isinstance(budget_value, str)
else-branch) resolves to the "medium" tier regardless of magnitude. -/
theorem claim_C9_nonstring_budget_is_medium (q : ℚ) :
    resolve_budget_level (.num q) = "medium" := rfl

theorem time_spots_aux_length (off : ℚ) (l : List Spot) :
    (time_spots_aux off l).length = l.length := by
  induction l generalizing off with
  | nil => rfl
  | cons s rest ih => simp [time_spots_aux, ih]

theorem time_spots_aux_map_base (off : ℚ) (l : List Spot) :
    (time_spots_aux off l).map (fun t => t.base) = l := by
  induction l generalizing off with
  | nil => rfl
  | cons s rest ih => simp [time_spots_aux, ih]

/-- Characterization of the timing loop: the i-th timed spot starts at
9 + offset + (sum of the durations before it) and ends a duration later,
both truncated to whole hours. -/
theorem time_spots_aux_getD (l : List Spot) :
    ∀ (off : ℚ) (i : ℕ), i < l.length →
    (time_spots_aux off l).getD i default =
      { base := l.getD i default,
        start_time := render_hour (pyInt (9 + (off + ((l.take i).map duration_of).sum))),
        end_time := render_hour (pyInt (9 + (off + ((l.take i).map duration_of).sum) +
          duration_of (l.getD i default))) } := by
  induction l with
  | nil => intro off i hi; simp at hi
  | cons s rest ih =>
    intro off i hi
    cases i with
    | zero =>
      simp only [time_spots_aux, List.getD_cons_zero, List.take_zero, List.map_nil,
        List.sum_nil, add_zero]
    | succ i =>
      simp only [time_spots_aux, List.getD_cons_succ]
      have hi' : i < rest.length := by simpa using hi
      rw [ih (off + duration_of s) i hi']
      have harg : off + duration_of s + ((rest.take i).map duration_of).sum =
          off + (((s :: rest).take (i + 1)).map duration_of).sum := by
        simp [List.take_succ_cons]
        ring
      rw [harg]

theorem format_daily_plan_length (dist : Spot → Spot → ℚ)
    (nxTour : List Spot → (ℕ → ℕ → ℚ) → List ℕ)
    (wpPlan : Option (Spot → List Spot → Option (List ℕ)))
    (plan : List (String × List String)) (spot_map : List (String × Spot)) :
    (format_daily_plan_to_itinerary dist nxTour wpPlan plan spot_map).length =
      (sorted_day_keys plan).length := by
  unfold format_daily_plan_to_itinerary
  exact List.length_map _ _

theorem format_daily_plan_getD (dist : Spot → Spot → ℚ)
    (nxTour : List Spot → (ℕ → ℕ → ℚ) → List ℕ)
    (wpPlan : Option (Spot → List Spot → Option (List ℕ)))
    (plan : List (String × List String)) (spot_map : List (String × Spot)) (k : ℕ)
    (hk : k < (format_daily_plan_to_itinerary dist nxTour wpPlan plan spot_map).length) :
    (format_daily_plan_to_itinerary dist nxTour wpPlan plan spot_map).getD k default =
      { day := first_number ((sorted_day_keys plan).getD k ""),
        spots := time_spots_aux 0
          (day_spots_for dist nxTour wpPlan plan spot_map ((sorted_day_keys plan).getD k "")) } := by
  have hk' : k < (sorted_day_keys plan).length := by
    rw [← format_daily_plan_length dist nxTour wpPlan plan spot_map]
    exact hk
  unfold format_daily_plan_to_itinerary at hk ⊢
  rw [List.getD_eq_getElem _ _ hk, List.getElem_map, List.getD_eq_getElem _ _ hk']

theorem optimize_daily_route_none_perm (dist : Spot → Spot → ℚ)
    (nxTour : List Spot → (ℕ → ℕ → ℚ) → List ℕ) (attractions : List Spot)
    (htour : ∀ sp D, ((nxTour sp D).dropLast).Perm (List.range sp.length)) :
    (optimize_daily_route dist nxTour none attractions).Perm attractions := by
  unfold optimize_daily_route
  split_ifs with h
  · exact List.Perm.refl _
  · exact get_optimal_route_perm dist nxTour _ (fun _ => htour _ _)

theorem optimize_daily_route_subset (dist : Spot → Spot → ℚ)
    (nxTour : List Spot → (ℕ → ℕ → ℚ) → List ℕ)
    (wpPlan : Option (Spot → List Spot → Option (List ℕ))) (attractions : List Spot)
    (htour : ∀ sp D, ((nxTour sp D).dropLast).Perm (List.range sp.length)) :
    ∀ s ∈ optimize_daily_route dist nxTour wpPlan attractions, s ∈ attractions := by
  intro s hs
  unfold optimize_daily_route at hs
  by_cases h : attractions.length ≤ 1
  · rw [if_pos h] at hs
    exact hs
  · rw [if_neg h] at hs
    have hfall : s ∈ get_optimal_route dist nxTour attractions → s ∈ attractions := fun hmem =>
      (get_optimal_route_perm dist nxTour attractions (fun _ => htour _ _)).mem_iff.mp hmem
    cases wpPlan with
    | none => exact hfall hs
    | some plan =>
      dsimp only at hs
      by_cases ho : has_coords (attractions.getD 0 default)
      · rw [if_pos ho] at hs
        cases hp : plan (attractions.getD 0 default) ((attractions.drop 1).filter has_coords) with
        | none =>
          rw [hp] at hs
          exact hfall hs
        | some idxs =>
          rw [hp] at hs
          dsimp only at hs
          split_ifs at hs with hall
          · rcases List.mem_cons.mp hs with rfl | hmem
            · have h0 : 0 < attractions.length := by omega
              rw [List.getD_eq_getElem _ _ h0]
              exact List.getElem_mem h0
            · obtain ⟨idx, hidx, rfl⟩ := List.mem_map.mp hmem
              have hin : idx + 1 < attractions.length :=
                of_decide_eq_true (List.all_eq_true.mp hall idx hidx)
              rw [List.getD_eq_getElem _ _ hin]
              exact List.getElem_mem hin
          · exact hfall hs
      · rw [if_neg ho] at hs
        exact hs

theorem day_spots_for_subset (dist : Spot → Spot → ℚ)
    (nxTour : List Spot → (ℕ → ℕ → ℚ) → List ℕ)
    (wpPlan : Option (Spot → List Spot → Option (List ℕ)))
    (plan : List (String × List String)) (spot_map : List (String × Spot))
    (day_key : String)
    (htour : ∀ sp D, ((nxTour sp D).dropLast).Perm (List.range sp.length)) :
    ∀ s ∈ day_spots_for dist nxTour wpPlan plan spot_map day_key,
      s ∈ resolve_spot_names ((plan.lookup day_key).getD []) spot_map := by
  intro s hs
  unfold day_spots_for at hs
  dsimp only at hs
  split_ifs at hs with h
  · exact optimize_daily_route_subset dist nxTour wpPlan _ htour s hs
  · exact hs

theorem day_spots_for_none_perm (dist : Spot → Spot → ℚ)
    (nxTour : List Spot → (ℕ → ℕ → ℚ) → List ℕ)
    (plan : List (String × List String)) (spot_map : List (String × Spot))
    (day_key : String)
    (htour : ∀ sp D, ((nxTour sp D).dropLast).Perm (List.range sp.length)) :
    (day_spots_for dist nxTour none plan spot_map day_key).Perm
      (resolve_spot_names ((plan.lookup day_key).getD []) spot_map) := by
  unfold day_spots_for
  dsimp only
  split_ifs with h
  · exact optimize_daily_route_none_perm dist nxTour _ htour
  · exact List.Perm.refl _

/-- Shared per-stop timing fact: every stop of every produced day is
stamped from the cumulative durations of the stops before it in that day,
with the minutes fixed at :00. -/
theorem format_daily_plan_stop (dist : Spot → Spot → ℚ)
    (nxTour : List Spot → (ℕ → ℕ → ℚ) → List ℕ)
    (wpPlan : Option (Spot → List Spot → Option (List ℕ)))
    (plan : List (String × List String)) (spot_map : List (String × Spot)) (k i : ℕ)
    (hk : k < (format_daily_plan_to_itinerary dist nxTour wpPlan plan spot_map).length)
    (hi : i < ((format_daily_plan_to_itinerary dist nxTour wpPlan plan spot_map).getD k
      default).spots.length) :
    ∃ l : List Spot,
      ((format_daily_plan_to_itinerary dist nxTour wpPlan plan spot_map).getD k default).spots =
        time_spots_aux 0 l ∧
      l = day_spots_for dist nxTour wpPlan plan spot_map ((sorted_day_keys plan).getD k "") ∧
      i < l.length ∧
      ((format_daily_plan_to_itinerary dist nxTour wpPlan plan spot_map).getD k
          default).spots.getD i default =
        { base := l.getD i default,
          start_time := render_hour (pyInt (9 + (0 + ((l.take i).map duration_of).sum))),
          end_time := render_hour (pyInt (9 + (0 + ((l.take i).map duration_of).sum) +
            duration_of (l.getD i default))) } := by
  rw [format_daily_plan_getD dist nxTour wpPlan plan spot_map k hk] at hi ⊢
  refine ⟨day_spots_for dist nxTour wpPlan plan spot_map ((sorted_day_keys plan).getD k ""),
    rfl, rfl, ?_, ?_⟩
  · rw [time_spots_aux_length] at hi
    exact hi
  · rw [time_spots_aux_length] at hi
    exact time_spots_aux_getD _ 0 i hi

/-- Conversion between output durations and input durations of a day. -/
theorem time_spots_aux_durations (off : ℚ) (l : List Spot) :
    (time_spots_aux off l).map (fun t => duration_of t.base) = l.map duration_of := by
  have h := time_spots_aux_map_base off l
  calc (time_spots_aux off l).map (fun t => duration_of t.base)
      = ((time_spots_aux off l).map (fun t => t.base)).map duration_of := by
        rw [List.map_map]
        rfl
    _ = l.map duration_of := by rw [h]

/-- C6 (amended): format_daily_plan_to_itinerary does not enforce any
8-hour cap: a day may hold several stops whose durations total more than
8 hours.  What the scheduler does guarantee about a day's contents is
this: every stop is drawn from the spots resolvable from that day's plan
entry (day-local optimization introduces no foreign spots, though the
external waypoints branch may drop or repeat some), and when the
InformationAgent is unavailable — the internal-TSP fallback — the day is
exactly a permutation of its resolvable plan entry; the day number is the
key's number. -/
theorem claim_C6_day_contents (dist : Spot → Spot → ℚ)
    (nxTour : List Spot → (ℕ → ℕ → ℚ) → List ℕ)
    (wpPlan : Option (Spot → List Spot → Option (List ℕ)))
    (plan : List (String × List String)) (spot_map : List (String × Spot)) (k : ℕ)
    (htour : ∀ sp D, ((nxTour sp D).dropLast).Perm (List.range sp.length))
    (hk : k < (format_daily_plan_to_itinerary dist nxTour wpPlan plan spot_map).length) :
    ((format_daily_plan_to_itinerary dist nxTour wpPlan plan spot_map).getD k default).day =
      first_number ((sorted_day_keys plan).getD k "") ∧
    (∀ t ∈ ((format_daily_plan_to_itinerary dist nxTour wpPlan plan spot_map).getD k
        default).spots,
      t.base ∈ resolve_spot_names
        ((plan.lookup ((sorted_day_keys plan).getD k "")).getD []) spot_map) ∧
    (wpPlan = none →
      (((format_daily_plan_to_itinerary dist nxTour wpPlan plan spot_map).getD k
          default).spots.map (fun t => t.base)).Perm
        (resolve_spot_names
          ((plan.lookup ((sorted_day_keys plan).getD k "")).getD []) spot_map)) := by
  rw [format_daily_plan_getD dist nxTour wpPlan plan spot_map k hk]
  refine ⟨rfl, ?_, ?_⟩
  · intro t ht
    dsimp only at ht ⊢
    have hbase : t.base ∈ (time_spots_aux 0
        (day_spots_for dist nxTour wpPlan plan spot_map
          ((sorted_day_keys plan).getD k ""))).map (fun t => t.base) :=
      List.mem_map_of_mem _ ht
    rw [time_spots_aux_map_base] at hbase
    exact day_spots_for_subset dist nxTour wpPlan plan spot_map _ htour _ hbase
  · intro hw
    subst hw
    dsimp only
    rw [time_spots_aux_map_base]
    exact day_spots_for_none_perm dist nxTour plan spot_map _ htour

theorem wtour_ham_spec :
    ∀ sp D, ((wtour_ham sp D).dropLast).Perm (List.range sp.length) := by
  intro sp D
  unfold wtour_ham
  rw [List.dropLast_concat]

/-- C6 counterexample: a daily plan naming three four-hour attractions for
day 1 yields a single day of three stops totalling 12 hours of
estimated_duration — the scheduler enforces no 8-hour cap. -/
theorem claim_C6_counterexample :
    (format_daily_plan_to_itinerary wdist wtour_ham none w6_plan w6_map).length = 1 ∧
    (((format_daily_plan_to_itinerary wdist wtour_ham none w6_plan w6_map).getD 0
        default).spots.map (fun t => duration_of t.base)).sum = 12 ∧
    ((format_daily_plan_to_itinerary wdist wtour_ham none w6_plan w6_map).getD 0
      default).spots.length = 3 ∧
    ¬((12 : ℚ) ≤ 8) := by
  have hkeys : sorted_day_keys w6_plan = ["day1"] := rfl
  have hlen : (format_daily_plan_to_itinerary wdist wtour_ham none w6_plan w6_map).length = 1 := by
    rw [format_daily_plan_length, hkeys]
    rfl
  have hk : 0 < (format_daily_plan_to_itinerary wdist wtour_ham none w6_plan w6_map).length := by
    omega
  have hday := format_daily_plan_getD wdist wtour_ham none w6_plan w6_map 0 hk
  have hkey0 : (sorted_day_keys w6_plan).getD 0 "" = "day1" := by rw [hkeys]; rfl
  rw [hkey0] at hday
  have hperm := day_spots_for_none_perm wdist wtour_ham w6_plan w6_map "day1" wtour_ham_spec
  have hres : resolve_spot_names ((w6_plan.lookup "day1").getD []) w6_map =
      List.replicate 3 wspot_e := rfl
  rw [hres] at hperm
  have hL : day_spots_for wdist wtour_ham none w6_plan w6_map "day1" =
      List.replicate 3 wspot_e := (List.replicate_perm.mp hperm.symm).symm
  refine ⟨hlen, ?_, ?_, by norm_num⟩
  · rw [hday]
    dsimp only
    rw [time_spots_aux_durations, hL]
    show duration_of wspot_e + (duration_of wspot_e + (duration_of wspot_e + 0)) = 12
    show (4 : ℚ) + (4 + (4 + 0)) = 12
    norm_num
  · rw [hday]
    dsimp only
    rw [time_spots_aux_length, hL]
    rfl

/-- Concrete instantiation of the amended C6 discharging its hypotheses. -/
theorem claim_C6_witness :
    ((∀ sp D, ((wtour_ham sp D).dropLast).Perm (List.range sp.length)) ∧
      0 < (format_daily_plan_to_itinerary wdist wtour_ham none w6_plan w6_map).length) ∧
    (((format_daily_plan_to_itinerary wdist wtour_ham none w6_plan w6_map).getD 0 default).day =
      first_number ((sorted_day_keys w6_plan).getD 0 "") ∧
    (∀ t ∈ ((format_daily_plan_to_itinerary wdist wtour_ham none w6_plan w6_map).getD 0
        default).spots,
      t.base ∈ resolve_spot_names
        ((w6_plan.lookup ((sorted_day_keys w6_plan).getD 0 "")).getD []) w6_map) ∧
    ((none : Option (Spot → List Spot → Option (List ℕ))) = none →
      (((format_daily_plan_to_itinerary wdist wtour_ham none w6_plan w6_map).getD 0
          default).spots.map (fun t => t.base)).Perm
        (resolve_spot_names
          ((w6_plan.lookup ((sorted_day_keys w6_plan).getD 0 "")).getD []) w6_map))) :=
  ⟨⟨wtour_ham_spec, by rw [format_daily_plan_length]; decide⟩,
    claim_C6_day_contents wdist wtour_ham none w6_plan w6_map 0 wtour_ham_spec
      (by rw [format_daily_plan_length]; decide)⟩

/-- C7 (amended): in every produced day, the i-th stop's start hour is the
int-truncation of 9 plus the sum of its predecessors' durations and its end
hour the truncation of that offset plus its own duration, with the minutes
always rendered as 00; the first stop starts at 09:00.  The claimed
arithmetic on rendered clock times (start = previous start + previous
duration) therefore holds exactly only for whole-hour durations. -/
theorem claim_C7_stop_times (dist : Spot → Spot → ℚ)
    (nxTour : List Spot → (ℕ → ℕ → ℚ) → List ℕ)
    (wpPlan : Option (Spot → List Spot → Option (List ℕ)))
    (plan : List (String × List String)) (spot_map : List (String × Spot)) (k i : ℕ)
    (hk : k < (format_daily_plan_to_itinerary dist nxTour wpPlan plan spot_map).length)
    (hi : i < ((format_daily_plan_to_itinerary dist nxTour wpPlan plan spot_map).getD k
      default).spots.length) :
    (((format_daily_plan_to_itinerary dist nxTour wpPlan plan spot_map).getD k
        default).spots.getD i default).start_time =
      render_hour (pyInt (9 +
        ((((format_daily_plan_to_itinerary dist nxTour wpPlan plan spot_map).getD k
          default).spots.map (fun t => duration_of t.base)).take i).sum)) ∧
    (((format_daily_plan_to_itinerary dist nxTour wpPlan plan spot_map).getD k
        default).spots.getD i default).end_time =
      render_hour (pyInt (9 +
        ((((format_daily_plan_to_itinerary dist nxTour wpPlan plan spot_map).getD k
          default).spots.map (fun t => duration_of t.base)).take i).sum +
        duration_of ((((format_daily_plan_to_itinerary dist nxTour wpPlan plan spot_map).getD k
          default).spots.getD i default).base))) ∧
    (i = 0 →
      (((format_daily_plan_to_itinerary dist nxTour wpPlan plan spot_map).getD k
        default).spots.getD 0 default).start_time = "09:00") := by
  obtain ⟨l, hspots, hldef, hil, hstop⟩ :=
    format_daily_plan_stop dist nxTour wpPlan plan spot_map k i hk hi
  have hdurs : ((format_daily_plan_to_itinerary dist nxTour wpPlan plan spot_map).getD k
      default).spots.map (fun t => duration_of t.base) = l.map duration_of := by
    rw [hspots, time_spots_aux_durations]
  refine ⟨?_, ?_, ?_⟩
  · rw [hstop, hdurs, ← List.map_take]
    dsimp only
    exact congrArg render_hour (congrArg pyInt (by ring))
  · rw [hstop, hdurs, ← List.map_take]
    dsimp only
    exact congrArg render_hour (congrArg pyInt (by ring))
  · intro hi0
    subst hi0
    rw [hstop]
    dsimp only
    have h9 : pyInt (9 + (0 + ((l.take 0).map duration_of).sum)) = 9 := by
      unfold pyInt
      rw [if_pos (by norm_num)]
      norm_num
    rw [h9]
    rfl

/-- C7 counterexample: a single stop of duration 1.5 h starts at 09:00 but
is stamped end_time 10:00, not the 10:30 that start_time plus
estimated_duration demands — the renderer truncates to whole hours. -/
theorem claim_C7_counterexample :
    (((format_daily_plan_to_itinerary wdist wtour none w7_plan w7_map).getD 0
        default).spots.getD 0 default).start_time = "09:00" ∧
    duration_of ((((format_daily_plan_to_itinerary wdist wtour none w7_plan w7_map).getD 0
        default).spots.getD 0 default).base) = 3/2 ∧
    (((format_daily_plan_to_itinerary wdist wtour none w7_plan w7_map).getD 0
        default).spots.getD 0 default).end_time = "10:00" ∧
    spec_render_hhmm (9 + 3/2) = "10:30" ∧
    ("10:00" : String) ≠ "10:30" := by
  have hstop : ((format_daily_plan_to_itinerary wdist wtour none w7_plan w7_map).getD 0
      default).spots.getD 0 default =
      { base := wspot_d,
        start_time := render_hour (pyInt (9 + 0)),
        end_time := render_hour (pyInt (9 + 0 + duration_of wspot_d)) } := rfl
  refine ⟨?_, ?_, ?_, ?_, by decide⟩
  · rw [hstop]
    have h9 : pyInt ((9 : ℚ) + 0) = 9 := by
      unfold pyInt
      rw [if_pos (by norm_num)]
      norm_num
    show render_hour (pyInt (9 + 0)) = "09:00"
    rw [h9]
    rfl
  · rw [hstop]
    rfl
  · rw [hstop]
    show render_hour (pyInt (9 + 0 + duration_of wspot_d)) = "10:00"
    have harg : (9 : ℚ) + 0 + duration_of wspot_d = 21/2 := by
      norm_num [duration_of, wspot_d]
    have h10 : pyInt ((21 : ℚ)/2) = 10 := by
      unfold pyInt
      rw [if_pos (by norm_num)]
      norm_num
    rw [harg, h10]
    rfl
  · unfold spec_render_hhmm
    have h1 : ⌊(9 + 3/2 : ℚ)⌋ = 10 := by norm_num
    rw [h1]
    have h2 : ((9 + 3/2 : ℚ) - ((10 : ℤ) : ℚ)) * 60 = 30 := by norm_num
    rw [h2]
    have h3 : ⌊(30 : ℚ)⌋ = 30 := by norm_num
    rw [h3]
    rfl

/-- Concrete instantiation of the amended C7 discharging its hypotheses. -/
theorem claim_C7_witness :
    (0 < (format_daily_plan_to_itinerary wdist wtour none w7_plan w7_map).length ∧
      0 < ((format_daily_plan_to_itinerary wdist wtour none w7_plan w7_map).getD 0
        default).spots.length) ∧
    ((((format_daily_plan_to_itinerary wdist wtour none w7_plan w7_map).getD 0
        default).spots.getD 0 default).start_time =
      render_hour (pyInt (9 +
        ((((format_daily_plan_to_itinerary wdist wtour none w7_plan w7_map).getD 0
          default).spots.map (fun t => duration_of t.base)).take 0).sum)) ∧
    (((format_daily_plan_to_itinerary wdist wtour none w7_plan w7_map).getD 0
        default).spots.getD 0 default).end_time =
      render_hour (pyInt (9 +
        ((((format_daily_plan_to_itinerary wdist wtour none w7_plan w7_map).getD 0
          default).spots.map (fun t => duration_of t.base)).take 0).sum +
        duration_of ((((format_daily_plan_to_itinerary wdist wtour none w7_plan
          w7_map).getD 0 default).spots.getD 0 default).base))) ∧
    (0 = 0 →
      (((format_daily_plan_to_itinerary wdist wtour none w7_plan w7_map).getD 0
        default).spots.getD 0 default).start_time = "09:00")) :=
  ⟨⟨by decide, by decide⟩,
    claim_C7_stop_times wdist wtour none w7_plan w7_map 0 0 (by decide) (by decide)⟩

theorem pyInt_add_two {q : ℚ} (hq : 0 ≤ q) : pyInt (q + 2) = pyInt q + 2 := by
  unfold pyInt
  rw [if_pos hq, if_pos (by linarith)]
  rw [show (2 : ℚ) = ((2 : ℤ) : ℚ) by norm_num, Int.floor_add_int]

theorem take_succ_duration_sum (l : List Spot) (i : ℕ) (hi : i < l.length) :
    ((l.take (i + 1)).map duration_of).sum =
      ((l.take i).map duration_of).sum + duration_of (l.getD i default) := by
  rw [List.take_succ, List.map_append, List.sum_append]
  rw [List.getElem?_eq_getElem hi]
  rw [List.getD_eq_getElem _ _ hi]
  simp

/-- C10: a spot lacking the estimated_duration key is scheduled with the
default of 2 hours: its end hour is its start hour plus 2 and any following
stop on the day starts at that same hour (durations are non-negative per
the data model, which keeps the clock cursor non-negative so that int
truncation commutes with the +2). -/
theorem claim_C10_missing_duration_defaults_two (dist : Spot → Spot → ℚ)
    (nxTour : List Spot → (ℕ → ℕ → ℚ) → List ℕ)
    (wpPlan : Option (Spot → List Spot → Option (List ℕ)))
    (plan : List (String × List String)) (spot_map : List (String × Spot)) (k i : ℕ)
    (hk : k < (format_daily_plan_to_itinerary dist nxTour wpPlan plan spot_map).length)
    (hi : i < ((format_daily_plan_to_itinerary dist nxTour wpPlan plan spot_map).getD k
      default).spots.length)
    (hdur : ((((format_daily_plan_to_itinerary dist nxTour wpPlan plan spot_map).getD k
      default).spots.getD i default).base).estimated_duration = none)
    (hnonneg : ∀ t ∈ ((format_daily_plan_to_itinerary dist nxTour wpPlan plan spot_map).getD k
      default).spots, 0 ≤ duration_of t.base) :
    ∃ h : ℤ,
      (((format_daily_plan_to_itinerary dist nxTour wpPlan plan spot_map).getD k
        default).spots.getD i default).start_time = render_hour h ∧
      (((format_daily_plan_to_itinerary dist nxTour wpPlan plan spot_map).getD k
        default).spots.getD i default).end_time = render_hour (h + 2) ∧
      (i + 1 < ((format_daily_plan_to_itinerary dist nxTour wpPlan plan spot_map).getD k
          default).spots.length →
        (((format_daily_plan_to_itinerary dist nxTour wpPlan plan spot_map).getD k
          default).spots.getD (i + 1) default).start_time = render_hour (h + 2)) := by
  obtain ⟨l, hspots, hldef, hil, hstop⟩ :=
    format_daily_plan_stop dist nxTour wpPlan plan spot_map k i hk hi
  have hlnonneg : ∀ s ∈ l, 0 ≤ duration_of s := by
    intro s hs
    have hmem : ∃ t ∈ ((format_daily_plan_to_itinerary dist nxTour wpPlan plan spot_map).getD k
        default).spots, t.base = s := by
      have := time_spots_aux_map_base 0 l
      rw [← hspots] at this
      rw [← this] at hs
      exact List.mem_map.mp hs
    obtain ⟨t, ht, hts⟩ := hmem
    rw [← hts]
    exact hnonneg t ht
  have hbase : (((format_daily_plan_to_itinerary dist nxTour wpPlan plan spot_map).getD k
      default).spots.getD i default).base = l.getD i default := by rw [hstop]
  have hdur2 : duration_of (l.getD i default) = 2 := by
    unfold duration_of
    rw [← hbase, hdur]
    rfl
  have hS0 : 0 ≤ ((l.take i).map duration_of).sum := by
    apply List.sum_nonneg
    intro x hx
    obtain ⟨s, hs, rfl⟩ := List.mem_map.mp hx
    exact hlnonneg s (List.mem_of_mem_take hs)
  have hq0 : (0 : ℚ) ≤ 9 + (0 + ((l.take i).map duration_of).sum) := by linarith
  refine ⟨pyInt (9 + (0 + ((l.take i).map duration_of).sum)), ?_, ?_, ?_⟩
  · rw [hstop]
  · rw [hstop]
    dsimp only
    rw [hdur2]
    exact congrArg render_hour (pyInt_add_two hq0)
  · intro hnext
    obtain ⟨l2, hspots2, hldef2, hil2, hstop2⟩ :=
      format_daily_plan_stop dist nxTour wpPlan plan spot_map k (i + 1) hk hnext
    have hll : l2 = l := by rw [hldef2, hldef]
    subst hll
    rw [hstop2]
    dsimp only
    rw [take_succ_duration_sum l2 i hil, hdur2]
    have harg : (9 : ℚ) + (0 + (((l2.take i).map duration_of).sum + 2)) =
        9 + (0 + ((l2.take i).map duration_of).sum) + 2 := by ring
    rw [harg]
    exact congrArg render_hour (pyInt_add_two hq0)

theorem claim_C10_witness :
    (0 < (format_daily_plan_to_itinerary wdist wtour none w10_plan w10_map).length ∧
      0 < ((format_daily_plan_to_itinerary wdist wtour none w10_plan w10_map).getD 0
        default).spots.length ∧
      ((((format_daily_plan_to_itinerary wdist wtour none w10_plan w10_map).getD 0
        default).spots.getD 0 default).base).estimated_duration = none ∧
      (∀ t ∈ ((format_daily_plan_to_itinerary wdist wtour none w10_plan w10_map).getD 0
        default).spots, 0 ≤ duration_of t.base)) ∧
    (∃ h : ℤ,
      (((format_daily_plan_to_itinerary wdist wtour none w10_plan w10_map).getD 0
        default).spots.getD 0 default).start_time = render_hour h ∧
      (((format_daily_plan_to_itinerary wdist wtour none w10_plan w10_map).getD 0
        default).spots.getD 0 default).end_time = render_hour (h + 2) ∧
      (0 + 1 < ((format_daily_plan_to_itinerary wdist wtour none w10_plan w10_map).getD 0
          default).spots.length →
        (((format_daily_plan_to_itinerary wdist wtour none w10_plan w10_map).getD 0
          default).spots.getD (0 + 1) default).start_time = render_hour (h + 2))) :=
  ⟨⟨by decide, by decide, rfl, by
      intro t ht
      have hsp : ((format_daily_plan_to_itinerary wdist wtour none w10_plan w10_map).getD 0
          default).spots =
          [((format_daily_plan_to_itinerary wdist wtour none w10_plan w10_map).getD 0
            default).spots.getD 0 default] := rfl
      rw [hsp] at ht
      rw [List.mem_singleton.mp ht]
      show (0 : ℚ) ≤ 2
      norm_num⟩,
    claim_C10_missing_duration_defaults_two wdist wtour none w10_plan w10_map 0 0
      (by decide) (by decide) rfl (by
        intro t ht
        have hsp : ((format_daily_plan_to_itinerary wdist wtour none w10_plan w10_map).getD 0
            default).spots =
            [((format_daily_plan_to_itinerary wdist wtour none w10_plan w10_map).getD 0
              default).spots.getD 0 default] := rfl
        rw [hsp] at ht
        rw [List.mem_singleton.mp ht]
        show (0 : ℚ) ≤ 2
        norm_num)⟩

theorem sin_half_sub_sq_symm (x y : ℝ) :
    Real.sin ((x - y) / 2) ^ 2 = Real.sin ((y - x) / 2) ^ 2 := by
  rw [show (x - y) / 2 = -((y - x) / 2) from by ring, Real.sin_neg]
  ring

/-- The haversine formula is symmetric in the two points. -/
theorem haversine_distance_symm (lat1 lon1 lat2 lon2 : ℝ) :
    haversine_distance lat1 lon1 lat2 lon2 = haversine_distance lat2 lon2 lat1 lon1 := by
  unfold haversine_distance
  have ha : Real.sin ((radians lat2 - radians lat1) / 2) ^ 2 +
      Real.cos (radians lat1) * Real.cos (radians lat2) *
        Real.sin ((radians lon2 - radians lon1) / 2) ^ 2 =
      Real.sin ((radians lat1 - radians lat2) / 2) ^ 2 +
      Real.cos (radians lat2) * Real.cos (radians lat1) *
        Real.sin ((radians lon1 - radians lon2) / 2) ^ 2 := by
    rw [sin_half_sub_sq_symm (radians lat2) (radians lat1),
      sin_half_sub_sq_symm (radians lon2) (radians lon1)]
    ring
  rw [ha]

/-- C5 (amended): _calculate_distance is value-symmetric — on a cache
holding neither directional key, swapping the two spots gives the same
result (the same distance, or the fallback, or the same KeyError) — but
the memoization is NOT order-independent: the cache key is directional. -/
theorem claim_C5_symmetric_value (cache : List (String × ℝ)) (s1 s2 : Spot)
    (h1 : cache.lookup (cache_key s1 s2) = none)
    (h2 : cache.lookup (cache_key s2 s1) = none) :
    (calculate_distance cache s1 s2).map Prod.fst =
      (calculate_distance cache s2 s1).map Prod.fst := by
  rcases hl1 : s1.location with - | l1 <;> rcases hl2 : s2.location with - | l2 <;>
    simp only [calculate_distance, hl1, hl2]
  rw [h1, h2]
  rcases l1.lat with - | a <;> rcases l1.lng with - | b <;>
    rcases l2.lat with - | c <;> rcases l2.lng with - | d <;>
    simp only [Except.map]
  rw [haversine_distance_symm]

/-- C5 counterexample: the cache key is f"{id1}_{id2}", which is not
order-independent, and a result stored for (p, q) is not reused for
(q, p): the swapped call computes and stores a second entry. -/
theorem claim_C5_counterexample :
    cache_key wspot_p wspot_q ≠ cache_key wspot_q wspot_p ∧
    (match calculate_distance [] wspot_p wspot_q with
      | .ok (_, c) => c.length
      | .error _ => 0) = 1 ∧
    (match calculate_distance [] wspot_p wspot_q with
      | .ok (_, c1) =>
        (match calculate_distance c1 wspot_q wspot_p with
          | .ok (_, c2) => c2.length
          | .error _ => 0)
      | .error _ => 0) = 2 := by
  refine ⟨by decide, rfl, rfl⟩

/-- Concrete instantiation of the amended C5 discharging its hypotheses. -/
theorem claim_C5_witness :
    (List.lookup (cache_key wspot_p wspot_q) ([] : List (String × ℝ)) = none ∧
      List.lookup (cache_key wspot_q wspot_p) ([] : List (String × ℝ)) = none) ∧
    (calculate_distance [] wspot_p wspot_q).map Prod.fst =
      (calculate_distance [] wspot_q wspot_p).map Prod.fst :=
  ⟨⟨rfl, rfl⟩, claim_C5_symmetric_value [] wspot_p wspot_q rfl rfl⟩

/-- C8 (amended): the constant-fallback path applies exactly when the
location key itself is absent on either spot: then the call returns 1 and
leaves the cache unchanged, raising nothing. -/
theorem claim_C8_missing_location_fallback (cache : List (String × ℝ)) (s1 s2 : Spot)
    (h : s1.location = none ∨ s2.location = none) :
    calculate_distance cache s1 s2 = .ok (1, cache) := by
  rcases h with h | h
  · rcases hl2 : s2.location with - | l2 <;> simp only [calculate_distance, h, hl2]
  · rcases hl1 : s1.location with - | l1 <;> simp only [calculate_distance, h, hl1]

/-- C8 counterexample: a spot that lacks valid coordinates but HAS a
location key makes _calculate_distance raise a KeyError instead of
returning the fallback — the code only tests key presence, not validity. -/
theorem claim_C8_counterexample :
    calculate_distance [] wspot_m wspot_p = .error () ∧
    wspot_m.location ≠ none :=
  ⟨rfl, Option.some_ne_none _⟩

/-- Concrete instantiation of the amended C8 discharging its hypothesis. -/
theorem claim_C8_witness :
    ((wspot_a.location = none ∨ wspot_p.location = none) ∧
      calculate_distance [] wspot_a wspot_p = .ok (1, [])) :=
  ⟨Or.inl rfl, claim_C8_missing_location_fallback [] wspot_a wspot_p (Or.inl rfl)⟩

end Vaiage
